import Mathlib

/-!
# gotetra, package `los/geom`: geometric primitives

A shallow embedding of `src/los/geom/primitives.go`.

* `float32` coordinates are elements of an arbitrary linearly ordered field `K`
  (exact arithmetic); every theorem therefore holds over the reals, and every
  definition can be evaluated over the rationals.  A theorem over `K` says
  nothing about rounding, overflow or NaN.
* `F32` is `float32` itself, with rounding to nearest, infinities and NaN;
  `PluckerVec.Dot` and `PluckerVec.SignDot` are also read over it.
* Go `int` arguments are `Int`.  An array access whose index is not a constant
  returns an `Option`: `none` is Go's run-time panic "index out of range".
* A method that mutates its receiver returns the new value of the receiver.
* Loops with constant bounds (`for i := 0; i < 3; i++`) are unrolled; an
  accumulator declared with `var sum float32` starts at `0`.
* Division is the division of `K`.  A float division by zero (an infinity or a
  NaN in Go, never a panic) is outside the model: the theorems that depend on a
  quotient assume a nonzero denominator.
* `math.Sqrt` is a parameter of `Tetra.BoundingSphere`; an exact square root is
  a function `sqrt` with `0 ≤ sqrt x` and `sqrt x * sqrt x = x` for `0 ≤ x`.
-/

namespace Geom

/-! ## Data model -/

/-- Go: `type Vec [3]float32`. -/
structure Vec (K : Type) where
  c0 : K
  c1 : K
  c2 : K
deriving DecidableEq, Repr

/-- Go: `type PluckerVec struct { U, V Vec }`. -/
structure PluckerVec (K : Type) where
  U : Vec K
  V : Vec K
deriving DecidableEq, Repr

/-- Go: `type AnchoredPluckerVec struct { PluckerVec; P Vec }`. -/
structure AnchoredPluckerVec (K : Type) extends PluckerVec K where
  P : Vec K
deriving DecidableEq, Repr

/-- Go: `type Tetra [4]Vec`. -/
structure Tetra (K : Type) where
  v0 : Vec K
  v1 : Vec K
  v2 : Vec K
  v3 : Vec K
deriving DecidableEq, Repr

/-- Go: `type Sphere struct { X, Y, Z, R float32 }`. -/
structure Sphere (K : Type) where
  X : K
  Y : K
  Z : K
  R : K
deriving DecidableEq, Repr

/-- Go: `type TetraFaceBary struct { w [3]float32; face int }`. -/
structure TetraFaceBary (K : Type) where
  w : Vec K
  face : Int
deriving DecidableEq, Repr

/-- Go: `v[i]` for a `Vec` and a run-time index `i`; `none` is the panic. -/
def Vec.idx {K : Type} (v : Vec K) (i : Int) : Option K :=
  if i = 0 then some v.c0
  else if i = 1 then some v.c1
  else if i = 2 then some v.c2
  else none

/-- Go: `t[i]` for a `Tetra` and a run-time index `i`; `none` is the panic. -/
def Tetra.idx {K : Type} (t : Tetra K) (i : Int) : Option (Vec K) :=
  if i = 0 then some t.v0
  else if i = 1 then some t.v1
  else if i = 2 then some t.v2
  else if i = 3 then some t.v3
  else none

/-- Go: `tbl[i][j]` for a constant table and run-time indices; `none` is the panic. -/
def tableAt {α : Type} (tbl : List (List α)) (i j : Int) : Option α :=
  if i < 0 ∨ j < 0 then none
  else (tbl.get? i.toNat).bind (fun row => row.get? j.toNat)

/-- Go: `arr[i]` for a constant array and a run-time index; `none` is the panic. -/
def arrayAt {α : Type} (arr : List α) (i : Int) : Option α :=
  if i < 0 then none else arr.get? i.toNat

/-! ## Static tables -/

/-- Go: `var tetraIdxs = [4][3]int{...}`. -/
def tetraIdxs : List (List Int) :=
  [ [3, 2, 1],
    [2, 3, 0],
    [1, 0, 3],
    [0, 1, 2] ]

/-- Go: `var pluckerTetraEdges = [4][3]int{...}`. -/
def pluckerTetraEdges : List (List Int) :=
  [ [3, 4, 5],
    [2, 1, 5],
    [2, 4, 0],
    [3, 1, 0] ]

/-- Go: `var pluckerTetraFlips = [4][3]bool{...}`. -/
def pluckerTetraFlips : List (List Bool) :=
  [ [true, false, true],
    [true, false, false],
    [false, true, true],
    [false, true, false] ]

/-- Go: `var pluckerTetraFaceShare = [6][6]bool{...}`. -/
def pluckerTetraFaceShare : List (List Bool) :=
  [ [false, true,  true,  true,  true,  false],
    [true,  false, true,  true,  false, true ],
    [true,  true,  false, false, true,  true ],
    [true,  true,  false, false, true,  true ],
    [true,  false, true,  true,  false, true ],
    [false, true,  true,  true,  true,  false] ]

/-- Go: `var tetraEdgeStarts = [6]int{ 0, 0, 0, 1, 1, 2 }`. -/
def tetraEdgeStarts : List Int := [0, 0, 0, 1, 1, 2]

/-- Go: `var tetraEdgeEnds = [6]int{ 1, 2, 3, 2, 3, 3 }`. -/
def tetraEdgeEnds : List Int := [1, 2, 3, 2, 3, 3]

/-- Go: `func (_ *Tetra) VertexIdx(face, vertex int) int`. -/
def VertexIdx (face vertex : Int) : Option Int :=
  tableAt tetraIdxs face vertex

/-- Go: `func (_ *PluckerTetra) EdgeIdx(face, edge int) (idx int, flip bool)`. -/
def EdgeIdx (face edge : Int) : Option (Int × Bool) := do
  let idx ← tableAt pluckerTetraEdges face edge
  let flip ← tableAt pluckerTetraFlips face edge
  pure (idx, flip)

/-- Go: `func (_ *PluckerTetra) TetraVertices(i int) (start, end int)`. -/
def TetraVertices (i : Int) : Option (Int × Int) := do
  let s ← arrayAt tetraEdgeStarts i
  let e ← arrayAt tetraEdgeEnds i
  pure (s, e)

/-! ## float32

Go's `float32` is IEEE-754 binary32.  `F32` is the set of its values and the
operations below are the ones `PluckerVec.Dot` and `PluckerVec.SignDot` use:
each finite result is rounded to the nearest binary32 value, ties to even, a
result of magnitude `2^128` or more is an infinity, and an undefined result
(`Inf - Inf`, `0 * Inf`) is NaN.  The two signed zeros are one value: none of
these operations, nor the comparisons `== 0` and `> 0`, tells them apart. -/

/-- Go: the values of `float32`: a finite value, given by the rational it
denotes, an infinity (`neg = true` is `-Inf`), or NaN. -/
inductive F32 where
  | fin (q : ℚ)
  | inf (neg : Bool)
  | nan
deriving DecidableEq, Repr

/-- Nearest integer to `x`, ties to the even one. -/
def F32.roundHalfEven (x : ℚ) : Int :=
  let f : Int := ⌊x⌋
  if x - f < 1 / 2 then f
  else if 1 / 2 < x - f then f + 1
  else if f % 2 = 0 then f
  else f + 1

/-- The binary32 value nearest to the rational `q`, ties to even.  With `e` the
exponent of `q` (at least `-126`, where the subnormal range begins) the spacing
of binary32 values around `q` is `2^(e-23)`; a rounded magnitude of `2^128` is
beyond the largest finite value and gives an infinity. -/
def F32.round (q : ℚ) : F32 :=
  if q = 0 then F32.fin 0
  else
    let e : Int := max (Int.log 2 |q|) (-126)
    let ulp : ℚ := (2 : ℚ) ^ (e - 23)
    let r : ℚ := (F32.roundHalfEven (|q| / ulp) : ℚ) * ulp
    if (2 : ℚ) ^ (128 : Nat) ≤ r then F32.inf (decide (q < 0))
    else F32.fin (if q < 0 then -r else r)

/-- Go: `x * y` on `float32`. -/
def F32.mul : F32 → F32 → F32
  | F32.nan, _ => F32.nan
  | _, F32.nan => F32.nan
  | F32.inf s, F32.inf t => F32.inf (xor s t)
  | F32.inf s, F32.fin b => if b = 0 then F32.nan else F32.inf (xor s (decide (b < 0)))
  | F32.fin a, F32.inf t => if a = 0 then F32.nan else F32.inf (xor (decide (a < 0)) t)
  | F32.fin a, F32.fin b => F32.round (a * b)

/-- Go: `x + y` on `float32`. -/
def F32.add : F32 → F32 → F32
  | F32.nan, _ => F32.nan
  | _, F32.nan => F32.nan
  | F32.inf s, F32.inf t => if s = t then F32.inf s else F32.nan
  | F32.inf s, F32.fin _ => F32.inf s
  | F32.fin _, F32.inf t => F32.inf t
  | F32.fin a, F32.fin b => F32.round (a + b)

/-- Go: `-x` on `float32`. -/
def F32.neg : F32 → F32
  | F32.nan => F32.nan
  | F32.inf s => F32.inf (!s)
  | F32.fin a => F32.fin (-a)

/-- Go: `x < y` on `float32`; every comparison with NaN is false. -/
def F32.ltb : F32 → F32 → Bool
  | F32.nan, _ => false
  | _, F32.nan => false
  | F32.inf s, F32.inf t => s && !t
  | F32.inf s, F32.fin _ => s
  | F32.fin _, F32.inf t => !t
  | F32.fin a, F32.fin b => decide (a < b)

instance : Zero F32 := ⟨F32.fin 0⟩

instance : Add F32 := ⟨F32.add⟩

instance : Mul F32 := ⟨F32.mul⟩

instance : Neg F32 := ⟨F32.neg⟩

instance : LT F32 := ⟨fun a b => F32.ltb a b = true⟩

instance (a b : F32) : Decidable (a < b) :=
  inferInstanceAs (Decidable (F32.ltb a b = true))

section Ops

variable {K : Type} [LinearOrderedField K]

/-! ## PluckerVec -/

/-- Go: `func (p *PluckerVec) Init(P, L *Vec)`. -/
def PluckerVec.Init (P L : Vec K) : PluckerVec K :=
  { U := L
    V := { c0 := -P.c1 * L.c2 + P.c2 * L.c1
           c1 := -P.c2 * L.c0 + P.c0 * L.c2
           c2 := -P.c0 * L.c1 + P.c1 * L.c0 } }

/-- Go: `func (p *PluckerVec) InitFromSegment(P1, P2 *Vec)`.  The local `sum`
(the squared length and its square root) is computed by the source and never
used: the normalising line is commented out there. -/
def PluckerVec.InitFromSegment (P1 P2 : Vec K) : PluckerVec K :=
  let U : Vec K := { c0 := P2.c0 - P1.c0, c1 := P2.c1 - P1.c1, c2 := P2.c2 - P1.c2 }
  { U := U
    V := { c0 := -P1.c1 * U.c2 + P1.c2 * U.c1
           c1 := -P1.c2 * U.c0 + P1.c0 * U.c2
           c2 := -P1.c0 * U.c1 + P1.c1 * U.c0 } }

/-- Go: `func (p *PluckerVec) Translate(dx *Vec)`. -/
def PluckerVec.Translate (p : PluckerVec K) (dx : Vec K) : PluckerVec K :=
  { U := p.U
    V := { c0 := p.V.c0 + (-dx.c1 * p.U.c2 + dx.c2 * p.U.c1)
           c1 := p.V.c1 + (-dx.c2 * p.U.c0 + dx.c0 * p.U.c2)
           c2 := p.V.c2 + (-dx.c0 * p.U.c1 + dx.c1 * p.U.c0) } }

/-- Go: `func (p1 *PluckerVec) Dot(p2 *PluckerVec, flip bool) float32`.  The
body uses only `0`, `+`, `*` and unary minus, so the same definition is read
over an exact field and over `F32`. -/
def PluckerVec.Dot {F : Type} [Zero F] [Add F] [Mul F] [Neg F]
    (p1 p2 : PluckerVec F) (flip : Bool) : F :=
  let sum : F := 0
    + (p1.U.c0 * p2.V.c0 + p1.V.c0 * p2.U.c0)
    + (p1.U.c1 * p2.V.c1 + p1.V.c1 * p2.U.c1)
    + (p1.U.c2 * p2.V.c2 + p1.V.c2 * p2.U.c2)
  if flip then sum else -sum

/-- Go: `func (p1 *PluckerVec) SignDot(p2 *PluckerVec, flip bool) (float32, int)`.
The two tests are `dot == 0` and `dot > 0`. -/
def PluckerVec.SignDot {F : Type} [Zero F] [Add F] [Mul F] [Neg F] [LT F] [DecidableEq F]
    [∀ a b : F, Decidable (a < b)] (p1 p2 : PluckerVec F) (flip : Bool) : F × Int :=
  let dot := p1.Dot p2 flip
  if dot = 0 then (dot, 0)
  else if dot > 0 then (dot, 1)
  else (dot, -1)

/-! ## AnchoredPluckerVec -/

/-- Go: `func (ap *AnchoredPluckerVec) Init(P, L *Vec)`. -/
def AnchoredPluckerVec.Init (P L : Vec K) : AnchoredPluckerVec K :=
  { toPluckerVec := PluckerVec.Init P L, P := P }

/-- Go: `func (ap *AnchoredPluckerVec) InitFromSegment(P1, P2 *Vec)`. -/
def AnchoredPluckerVec.InitFromSegment (P1 P2 : Vec K) : AnchoredPluckerVec K :=
  { toPluckerVec := PluckerVec.InitFromSegment P1 P2, P := P1 }

/-- Go: `func (ap *AnchoredPluckerVec) Translate(dx *Vec)`. -/
def AnchoredPluckerVec.Translate (ap : AnchoredPluckerVec K) (dx : Vec K) :
    AnchoredPluckerVec K :=
  { toPluckerVec := ap.toPluckerVec.Translate dx
    P := { c0 := ap.P.c0 + dx.c0, c1 := ap.P.c1 + dx.c1, c2 := ap.P.c2 + dx.c2 } }

/-! ## Tetra -/

/-- Go: `func (t *Tetra) Orient(dir int)`. -/
def Tetra.Orient (t : Tetra K) (dir : Int) : Tetra K :=
  let v : Vec K := { c0 := t.v1.c0 - t.v0.c0, c1 := t.v1.c1 - t.v0.c1, c2 := t.v1.c2 - t.v0.c2 }
  let w : Vec K := { c0 := t.v2.c0 - t.v0.c0, c1 := t.v2.c1 - t.v0.c1, c2 := t.v2.c2 - t.v0.c2 }
  let n : Vec K :=
    { c0 := -v.c1 * w.c2 + v.c2 * w.c1
      c1 := -v.c2 * w.c0 + v.c0 * w.c2
      c2 := -v.c0 * w.c1 + v.c1 * w.c0 }
  let dot : K := 0
    + n.c0 * (t.v3.c0 - t.v0.c0)
    + n.c1 * (t.v3.c1 - t.v0.c1)
    + n.c2 * (t.v3.c2 - t.v0.c2)
  if (dot < 0 ∧ dir = -1) ∨ (dot > 0 ∧ dir = 1) then
    { v0 := t.v1, v1 := t.v0, v2 := t.v2, v3 := t.v3 }
  else t

/-- Go: `func (t *Tetra) Translate(dx *Vec)`. -/
def Tetra.Translate (t : Tetra K) (dx : Vec K) : Tetra K :=
  let mv (v : Vec K) : Vec K := { c0 := v.c0 + dx.c0, c1 := v.c1 + dx.c1, c2 := v.c2 + dx.c2 }
  { v0 := mv t.v0, v1 := mv t.v1, v2 := mv t.v2, v3 := mv t.v3 }

/-- Go: the constant `1e-6` of `Tetra.Distance`, taken as the exact rational. -/
def distanceEps : K := 1 / 1000000

/-- Go: the loop `for dim = 0; dim < 3; dim++ { if ap.U[dim] > 1e-6 || ap.U[dim] < -1e-6 { break } }`
of `Tetra.Distance`, unrolled; the value of `dim` after the loop, which is `3`
when no iteration breaks. -/
def Tetra.Distance.scanDim (U : Vec K) : Int :=
  if U.c0 > distanceEps ∨ U.c0 < -distanceEps then 0
  else if U.c1 > distanceEps ∨ U.c1 < -distanceEps then 1
  else if U.c2 > distanceEps ∨ U.c2 < -distanceEps then 2
  else 3

/-- Go: `func (t *Tetra) Distance(ap *AnchoredPluckerVec, bary *TetraFaceBary) float32`.
The result is `none` when an index is out of range (the call panics). -/
def Tetra.Distance (t : Tetra K) (ap : AnchoredPluckerVec K) (bary : TetraFaceBary K) :
    Option K :=
  let sum : K := 0 + bary.w.c0 + bary.w.c1 + bary.w.c2
  let u0 := bary.w.c0 / sum
  let u1 := bary.w.c1 / sum
  let u2 := bary.w.c2 / sum
  let dim : Int := Tetra.Distance.scanDim ap.U
  do
    let p0 ← (← t.idx (← VertexIdx bary.face 0)).idx dim
    let p1 ← (← t.idx (← VertexIdx bary.face 1)).idx dim
    let p2 ← (← t.idx (← VertexIdx bary.face 2)).idx dim
    let pd ← ap.P.idx dim
    let ud ← ap.U.idx dim
    let d := ((u0 * p0 + u1 * p1 + u2 * p2) - pd) / ud
    pure d

/-! ## Sphere -/

/-- Go: `func (s1 *Sphere) Intersect(s2 *Sphere) bool`. -/
def Sphere.Intersect (s1 s2 : Sphere K) : Bool :=
  let dx := s1.X - s2.X
  let dy := s1.Y - s2.Y
  let dz := s1.Z - s2.Z
  let dr := s1.R - s2.R
  decide (dr * dr > dx * dx + dy * dy + dz * dz)

/-- Go: the three statements `dx, dy, dz = bx-t[i][0], by-t[i][1], bz-t[i][2]`,
`rSqr := dx*dx + dy*dy + dz*dz` of `Tetra.BoundingSphere` for one vertex. -/
def Tetra.BoundingSphere.rSqr (bx by_ bz : K) (v : Vec K) : K :=
  let dx := bx - v.c0
  let dy := by_ - v.c1
  let dz := bz - v.c2
  dx * dx + dy * dy + dz * dz

/-- Go: `func (t *Tetra) BoundingSphere(sph *Sphere)`.  The square root
`float32(math.Sqrt(float64(maxRSqr)))` is the parameter `sqrt`. -/
def Tetra.BoundingSphere (sqrt : K → K) (t : Tetra K) : Sphere K :=
  let bx := (t.v0.c0 + t.v1.c0 + t.v2.c0 + t.v3.c0) / 4
  let by_ := (t.v0.c1 + t.v1.c1 + t.v2.c1 + t.v3.c1) / 4
  let bz := (t.v0.c2 + t.v1.c2 + t.v2.c2 + t.v3.c2) / 4
  let maxRSqr0 := Tetra.BoundingSphere.rSqr bx by_ bz t.v0
  let maxRSqr := [t.v1, t.v2, t.v3].foldl
    (fun maxRSqr v =>
      let rSqr := Tetra.BoundingSphere.rSqr bx by_ bz v
      if rSqr > maxRSqr then rSqr else maxRSqr)
    maxRSqr0
  { X := bx, Y := by_, Z := bz, R := sqrt maxRSqr }

/-! ## PluckerTetra -/

/-- Go: `type PluckerTetra [6]PluckerVec`. -/
structure PluckerTetra (K : Type) where
  e0 : PluckerVec K
  e1 : PluckerVec K
  e2 : PluckerVec K
  e3 : PluckerVec K
  e4 : PluckerVec K
  e5 : PluckerVec K

/-- Go: `func (pt *PluckerTetra) Init(t *Tetra)`. -/
def PluckerTetra.Init (t : Tetra K) : PluckerTetra K :=
  { e0 := PluckerVec.InitFromSegment t.v0 t.v1
    e1 := PluckerVec.InitFromSegment t.v0 t.v2
    e2 := PluckerVec.InitFromSegment t.v0 t.v3
    e3 := PluckerVec.InitFromSegment t.v1 t.v2
    e4 := PluckerVec.InitFromSegment t.v1 t.v3
    e5 := PluckerVec.InitFromSegment t.v2 t.v3 }

/-- Go: `func (pt *PluckerTetra) Translate(dx *Vec)`. -/
def PluckerTetra.Translate (pt : PluckerTetra K) (dx : Vec K) : PluckerTetra K :=
  { e0 := pt.e0.Translate dx
    e1 := pt.e1.Translate dx
    e2 := pt.e2.Translate dx
    e3 := pt.e3.Translate dx
    e4 := pt.e4.Translate dx
    e5 := pt.e5.Translate dx }

/-! ## Vocabulary of the specification

The definitions below are not in the source: they are the mathematical notions
the specification uses to describe what the source computes. -/

/-- Componentwise sum of two vectors. -/
def Vec.add (a b : Vec K) : Vec K :=
  { c0 := a.c0 + b.c0, c1 := a.c1 + b.c1, c2 := a.c2 + b.c2 }

/-- Componentwise difference of two vectors. -/
def Vec.sub (a b : Vec K) : Vec K :=
  { c0 := a.c0 - b.c0, c1 := a.c1 - b.c1, c2 := a.c2 - b.c2 }

/-- Scalar multiple of a vector. -/
def Vec.smul (s : K) (a : Vec K) : Vec K :=
  { c0 := s * a.c0, c1 := s * a.c1, c2 := s * a.c2 }

/-- Euclidean inner product. -/
def Vec.inner (a b : Vec K) : K :=
  a.c0 * b.c0 + a.c1 * b.c1 + a.c2 * b.c2

/-- Cross product `a × b`. -/
def Vec.cross (a b : Vec K) : Vec K :=
  { c0 := a.c1 * b.c2 - a.c2 * b.c1
    c1 := a.c2 * b.c0 - a.c0 * b.c2
    c2 := a.c0 * b.c1 - a.c1 * b.c0 }

/-- Scalar triple product `a . (b × c)`. -/
def Vec.triple (a b c : Vec K) : K :=
  a.inner (b.cross c)

/-- Component `i` of a vector, for `i` in `0..2`. -/
def Vec.comp (a : Vec K) (i : Fin 3) : K :=
  match i with
  | 0 => a.c0
  | 1 => a.c1
  | 2 => a.c2

/-- Signed volume of a tetrahedron: `(V1-V0) . ((V2-V0) × (V3-V0))`. -/
def Tetra.signedVolume (t : Tetra K) : K :=
  Vec.triple (t.v1.sub t.v0) (t.v2.sub t.v0) (t.v3.sub t.v0)

/-- The tetrahedron with vertices 0 and 1 exchanged. -/
def Tetra.swap01 (t : Tetra K) : Tetra K :=
  { v0 := t.v1, v1 := t.v0, v2 := t.v2, v3 := t.v3 }

/-- The tetrahedron `(0,0,0), (1,0,0), (0,1,0), (0,0,1)`. -/
def unitTetra : Tetra K :=
  { v0 := ⟨0, 0, 0⟩, v1 := ⟨1, 0, 0⟩, v2 := ⟨0, 1, 0⟩, v3 := ⟨0, 0, 1⟩ }

/-- The permuted inner product `Σ_i (p1.U[i]*p2.V[i] + p1.V[i]*p2.U[i])`. -/
def PluckerVec.permutedInner (p1 p2 : PluckerVec K) : K :=
  ∑ i : Fin 3, (p1.U.comp i * p2.V.comp i + p1.V.comp i * p2.U.comp i)

/-- The barycentric point `Σ_i (w_i / (w0+w1+w2)) * t[VertexIdx(face, i)]` of a
face of `t`; `none` when `face` is not a face index. -/
def Tetra.baryPoint (t : Tetra K) (bary : TetraFaceBary K) : Option (Vec K) := do
  let a ← t.idx (← VertexIdx bary.face 0)
  let b ← t.idx (← VertexIdx bary.face 1)
  let c ← t.idx (← VertexIdx bary.face 2)
  let s := bary.w.c0 + bary.w.c1 + bary.w.c2
  pure (((a.smul (bary.w.c0 / s)).add (b.smul (bary.w.c1 / s))).add (c.smul (bary.w.c2 / s)))

/-- Squared Euclidean distance between two points. -/
def Vec.distSq (a b : Vec K) : K :=
  (a.c0 - b.c0) ^ 2 + (a.c1 - b.c1) ^ 2 + (a.c2 - b.c2) ^ 2

/-- Centre of a sphere as a point. -/
def Sphere.centre (s : Sphere K) : Vec K :=
  { c0 := s.X, c1 := s.Y, c2 := s.Z }

/-- Orientation determinant of face `f` relative to its opposite vertex `f`:
`(t[b]-t[a]) × (t[c]-t[a]) . (t[f]-t[a])` with `a, b, c = VertexIdx(f, 0..2)`;
`none` when `f` is not a face index. -/
def Tetra.faceDet (t : Tetra K) (f : Int) : Option K := do
  let va ← t.idx (← VertexIdx f 0)
  let vb ← t.idx (← VertexIdx f 1)
  let vc ← t.idx (← VertexIdx f 2)
  let vf ← t.idx f
  pure (((vb.sub va).cross (vc.sub va)).inner (vf.sub va))

/-- Centroid `(V0+V1+V2+V3)/4` of a tetrahedron. -/
def Tetra.centroid (t : Tetra K) : Vec K :=
  (((t.v0.add t.v1).add t.v2).add t.v3).smul (1 / 4)

end Ops

/-! ## Concrete inputs used to evaluate the definitions -/

/-- The tetrahedron `(0,0,0), (0,1,0), (1,0,0), (0,0,1)` over the rationals; its
signed volume is `-1`. -/
def mirrorTetra : Tetra ℚ :=
  { v0 := ⟨0, 0, 0⟩, v1 := ⟨0, 1, 0⟩, v2 := ⟨1, 0, 0⟩, v3 := ⟨0, 0, 1⟩ }

/-- The line through the origin along the first axis, as a `PluckerVec`. -/
def axisRay : PluckerVec ℚ := { U := ⟨1, 0, 0⟩, V := ⟨0, 0, 0⟩ }

/-- A `PluckerVec` with zero direction and moment along the first axis. -/
def axisMoment : PluckerVec ℚ := { U := ⟨0, 0, 0⟩, V := ⟨1, 0, 0⟩ }

/-- A ray from `(1/4, 1/2, -3)` along the third axis. -/
def probeRay : AnchoredPluckerVec ℚ :=
  AnchoredPluckerVec.Init ⟨1 / 4, 1 / 2, -3⟩ ⟨0, 0, 1⟩

/-- Weights `(1, 1, 2)` on face 3. -/
def probeBary : TetraFaceBary ℚ := { w := ⟨1, 1, 2⟩, face := 3 }

/-- The anchored ray of a segment whose two end points coincide at the origin:
its direction `U` is the zero vector. -/
def stillRay : AnchoredPluckerVec ℚ :=
  AnchoredPluckerVec.InitFromSegment ⟨0, 0, 0⟩ ⟨0, 0, 0⟩

/-- Weights `(1, 1, 1)` on face 0. -/
def evenBary : TetraFaceBary ℚ := { w := ⟨1, 1, 1⟩, face := 0 }

/-- The sphere of radius 3 about the origin. -/
def sphereA : Sphere ℚ := { X := 0, Y := 0, Z := 0, R := 3 }

/-- The sphere of radius 4 about `(10, 0, 0)`. -/
def sphereB : Sphere ℚ := { X := 10, Y := 0, Z := 0, R := 4 }

/-- A flat tetrahedron `(0,0,0), (1,0,0), (0,1,0), (1,1,0)`: its signed volume
is zero and its vertices 0 and 1 differ. -/
def flatTetra : Tetra ℚ :=
  { v0 := ⟨0, 0, 0⟩, v1 := ⟨1, 0, 0⟩, v2 := ⟨0, 1, 0⟩, v3 := ⟨1, 1, 0⟩ }

/-- The ray `U = (2^100, 0, 0)`, `V = (0, 2^100, 0)` in `float32`: it is
`Init(P, L)` for `P = (0, 0, -1)` and `L = (2^100, 0, 0)`. -/
def hugeRay : PluckerVec F32 :=
  { U := ⟨F32.fin (2 ^ 100), F32.fin 0, F32.fin 0⟩
    V := ⟨F32.fin 0, F32.fin (2 ^ 100), F32.fin 0⟩ }

/-- The ray `U = (0, -2^100, 0)`, `V = (2^100, 0, 0)` in `float32`: it is
`Init(P, L)` for `P = (0, 0, -1)` and `L = (0, -2^100, 0)`. -/
def hugeEdge : PluckerVec F32 :=
  { U := ⟨F32.fin 0, F32.fin (-2 ^ 100), F32.fin 0⟩
    V := ⟨F32.fin (2 ^ 100), F32.fin 0, F32.fin 0⟩ }

end Geom

/-!
# gotetra, package `main`: command-line orchestration

A shallow embedding of `main`, `checkCells`, `checkCoords` and `checkMode` of
`src/main.go`.  `log.Fatalf` ends the process: a check returns `Except.error`
with the logged message, and `main` returns the way the process ends.
-/

namespace Main

/-- The state of the command line after `flag.Parse()`: the values of the flags
`Log`, `X`, `Y`, `Z`, `Cells`, `CreateCatalog`, `CompareDensity`, the positional
arguments `flag.Args()`, and the error returned by `os.Create(*outPath)` when
there is one. -/
structure Flags where
  outPath : String
  x : Int
  y : Int
  z : Int
  cells : Int
  createCatalog : Bool
  compareDensity : Bool
  args : List String
  createErr : Option String
deriving DecidableEq, Repr

/-- Go: the ways `main` ends: a `log.Fatalf` or `log.Fatalln` with its message,
a call of `createCatalogsMain`, a call of `compareDensityMain`, or a plain
return. -/
inductive MainResult where
  | fatal (msg : String)
  | createCatalogsMain (x y z cells : Int) (sources : List String) (target : String)
  | compareDensityMain (x y z cells : Int) (sourceDir : String)
  | returned
deriving DecidableEq, Repr

/-- Go: `func checkCells(cells int, modeName string)`. -/
def checkCells (cells : Int) (modeName : String) : Except String Unit :=
  if cells = -1 then
    Except.error ("The mode " ++ modeName ++ " requires a positive number of cells.\n")
  else Except.ok ()

/-- Go: `func checkCoords(x, y, z int, modeName string)`. -/
def checkCoords (x y z : Int) (modeName : String) : Except String Unit :=
  if x = -1 then
    Except.error ("The mode " ++ modeName ++ " requires an x location.\n")
  else if y = -1 then
    Except.error ("The mode " ++ modeName ++ " requires a y location.\n")
  else if z = -1 then
    Except.error ("The mode " ++ modeName ++ " requires a z location.\n")
  else Except.ok ()

/-- Go: `func checkMode(createCatalog, compareDensity bool) string`. -/
def checkMode (createCatalog compareDensity : Bool) : Except String String :=
  let n0 : Nat := 0
  let modeStr0 : String := ""
  let (n1, modeStr1) := if createCatalog then (n0 + 1, "CreateCatalog") else (n0, modeStr0)
  let (n2, modeStr2) := if compareDensity then (n1 + 1, "CompareDensity") else (n1, modeStr1)
  if n2 ≠ 1 then
    Except.error ("Given " ++ toString n2 ++ " mode flags, but exactly 1 is required.\n")
  else Except.ok modeStr2

/-- Go: `func main()`, from `flag.Parse()` on. -/
def main (f : Flags) : MainResult :=
  match (if f.outPath = "" then none else f.createErr) with
  | some err => MainResult.fatal (err ++ "\n")
  | none =>
    match checkMode f.createCatalog f.compareDensity with
    | Except.error msg => MainResult.fatal msg
    | Except.ok modeName =>
      if f.createCatalog then
        match checkCells f.cells modeName with
        | Except.error msg => MainResult.fatal msg
        | Except.ok _ =>
          if f.args.length ≤ 1 then
            MainResult.fatal
              ("Mode " ++ modeName ++ " requires source files and a target directory.")
          else
            MainResult.createCatalogsMain f.x f.y f.z f.cells
              ((f.args.take (f.args.length - 1)).drop 1) (f.args.getLastD "")
      else if f.compareDensity then
        match checkCells f.cells modeName with
        | Except.error msg => MainResult.fatal msg
        | Except.ok _ =>
          match checkCoords f.x f.y f.x modeName with
          | Except.error msg => MainResult.fatal msg
          | Except.ok _ =>
            match f.args with
            | [source] => MainResult.compareDensityMain f.x f.y f.z f.cells source
            | _ => MainResult.fatal ("Mode " ++ modeName ++ " requires target directory.")
      else MainResult.returned

/-- The command line `-CompareDensity -Cells 8 -X 0 -Y 0 dir`: `Z` keeps its
default `-1`. -/
def missingZ : Flags :=
  { outPath := "", x := 0, y := 0, z := -1, cells := 8, createCatalog := false,
    compareDensity := true, args := ["dir"], createErr := none }

end Main

namespace Geom

/-! ## Theorems -/

section Theorems

variable {K : Type} [LinearOrderedField K]

/-- The accumulator `dot` of `Tetra.Orient` is the negated signed volume. -/
lemma Tetra.signedVolume_swap01 (t : Tetra K) :
    t.swap01.signedVolume = -t.signedVolume := by
  simp only [Tetra.signedVolume, Tetra.swap01, Vec.triple, Vec.inner, Vec.cross, Vec.sub]
  ring

/-- `Tetra.Orient` swaps exactly when the signed volume has the sign opposite to `dir`. -/
lemma Tetra.Orient_eq (t : Tetra K) (dir : Int) :
    t.Orient dir =
      if (0 < t.signedVolume ∧ dir = -1) ∨ (t.signedVolume < 0 ∧ dir = 1) then t.swap01
      else t := by
  have h : t.signedVolume = -(0
      + (-(t.v1.c1 - t.v0.c1) * (t.v2.c2 - t.v0.c2) + (t.v1.c2 - t.v0.c2) * (t.v2.c1 - t.v0.c1))
          * (t.v3.c0 - t.v0.c0)
      + (-(t.v1.c2 - t.v0.c2) * (t.v2.c0 - t.v0.c0) + (t.v1.c0 - t.v0.c0) * (t.v2.c2 - t.v0.c2))
          * (t.v3.c1 - t.v0.c1)
      + (-(t.v1.c0 - t.v0.c0) * (t.v2.c1 - t.v0.c1) + (t.v1.c1 - t.v0.c1) * (t.v2.c0 - t.v0.c0))
          * (t.v3.c2 - t.v0.c2)) := by
    simp only [Tetra.signedVolume, Vec.triple, Vec.inner, Vec.cross, Vec.sub]
    ring
  simp only [Tetra.Orient, Tetra.swap01, h, neg_pos, neg_neg_iff_pos, gt_iff_lt]

/-- `Orient(+1)` swaps exactly when the signed volume is negative. -/
lemma Tetra.Orient_one (t : Tetra K) :
    t.Orient 1 = if t.signedVolume < 0 then t.swap01 else t := by
  rw [Tetra.Orient_eq]
  have h : ((0 < t.signedVolume ∧ (1 : Int) = -1) ∨ (t.signedVolume < 0 ∧ (1 : Int) = 1))
      ↔ t.signedVolume < 0 := by
    constructor
    · rintro (⟨_, h⟩ | ⟨h, _⟩)
      · exact absurd h (by decide)
      · exact h
    · intro h; exact Or.inr ⟨h, rfl⟩
  exact if_congr h rfl rfl

/-- `Orient(-1)` swaps exactly when the signed volume is positive. -/
lemma Tetra.Orient_neg_one (t : Tetra K) :
    t.Orient (-1) = if 0 < t.signedVolume then t.swap01 else t := by
  rw [Tetra.Orient_eq]
  have h : ((0 < t.signedVolume ∧ (-1 : Int) = -1) ∨ (t.signedVolume < 0 ∧ (-1 : Int) = 1))
      ↔ 0 < t.signedVolume := by
    constructor
    · rintro (⟨h, _⟩ | ⟨_, h⟩)
      · exact h
      · exact absurd h (by decide)
    · intro h; exact Or.inl ⟨h, rfl⟩
  exact if_congr h rfl rfl

/-- C1: `Tetra.Orient(dir)` for `dir` in `{+1, -1}` returns `t` unchanged or `t`
with vertices 0 and 1 exchanged, never touches vertices 2 and 3, and leaves a
signed volume `(V1-V0) . ((V2-V0) × (V3-V0))` whose product with `dir` is
nonnegative, and positive when the input is not degenerate; on the tetrahedron
`(0,0,0), (1,0,0), (0,1,0), (0,0,1)`, `Orient(+1)` leaves a positive signed volume. -/
theorem Tetra.Orient_signedVolume (t : Tetra K) (dir : Int) (hdir : dir = 1 ∨ dir = -1) :
    (t.Orient dir = t ∨ t.Orient dir = t.swap01)
    ∧ (t.Orient dir).v2 = t.v2 ∧ (t.Orient dir).v3 = t.v3
    ∧ 0 ≤ (t.Orient dir).signedVolume * (dir : K)
    ∧ (t.signedVolume ≠ 0 → 0 < (t.Orient dir).signedVolume * (dir : K))
    ∧ 0 < ((unitTetra : Tetra K).Orient 1).signedVolume := by
  have hunit : ((unitTetra : Tetra K).Orient 1).signedVolume = 1 := by
    have h1 : (unitTetra : Tetra K).signedVolume = 1 := by
      simp [Tetra.signedVolume, unitTetra, Vec.triple, Vec.inner, Vec.cross, Vec.sub]
    rw [Tetra.Orient_one, h1, if_neg (by norm_num), h1]
  refine ⟨?_, ?_, ?_, ?_, ?_, by rw [hunit]; exact one_pos⟩
  · rw [Tetra.Orient_eq]; split_ifs
    · exact Or.inr rfl
    · exact Or.inl rfl
  · rw [Tetra.Orient_eq]; split_ifs <;> rfl
  · rw [Tetra.Orient_eq]; split_ifs <;> rfl
  · rcases hdir with rfl | rfl
    · rw [Tetra.Orient_one]
      by_cases h : t.signedVolume < 0
      · rw [if_pos h, Tetra.signedVolume_swap01]; push_cast; linarith
      · rw [if_neg h]; push_cast; linarith
    · rw [Tetra.Orient_neg_one]
      by_cases h : 0 < t.signedVolume
      · rw [if_pos h, Tetra.signedVolume_swap01]; push_cast; linarith
      · rw [if_neg h]; push_cast; linarith
  · intro hne
    rcases hdir with rfl | rfl
    · rw [Tetra.Orient_one]
      by_cases h : t.signedVolume < 0
      · rw [if_pos h, Tetra.signedVolume_swap01]; push_cast; linarith
      · rw [if_neg h]
        have h2 : 0 < t.signedVolume := lt_of_le_of_ne (not_lt.mp h) (Ne.symm hne)
        push_cast; linarith
    · rw [Tetra.Orient_neg_one]
      by_cases h : 0 < t.signedVolume
      · rw [if_pos h, Tetra.signedVolume_swap01]; push_cast; linarith
      · rw [if_neg h]
        have h2 : t.signedVolume < 0 := lt_of_le_of_ne (not_lt.mp h) hne
        push_cast; linarith

/-- Witness of C1: `Orient(+1)` on a tetrahedron of signed volume `-1`. -/
theorem Tetra.Orient_signedVolume_witness :
    ((1 : Int) = 1 ∨ (1 : Int) = -1)
    ∧ ((mirrorTetra.Orient 1 = mirrorTetra ∨ mirrorTetra.Orient 1 = mirrorTetra.swap01)
      ∧ (mirrorTetra.Orient 1).v2 = mirrorTetra.v2 ∧ (mirrorTetra.Orient 1).v3 = mirrorTetra.v3
      ∧ 0 ≤ (mirrorTetra.Orient 1).signedVolume * ((1 : Int) : ℚ)
      ∧ (mirrorTetra.signedVolume ≠ 0 → 0 < (mirrorTetra.Orient 1).signedVolume * ((1 : Int) : ℚ))
      ∧ 0 < ((unitTetra : Tetra ℚ).Orient 1).signedVolume) :=
  ⟨Or.inl rfl, Tetra.Orient_signedVolume mirrorTetra 1 (Or.inl rfl)⟩

/-- Two anchored rays with the same line coordinates and the same origin are equal. -/
lemma AnchoredPluckerVec.eq_of_parts {F : Type} (a b : AnchoredPluckerVec F)
    (h1 : a.toPluckerVec = b.toPluckerVec) (h2 : a.P = b.P) : a = b := by
  cases a; cases b; simp_all

/-- C3: `Init(P, L)` followed by `Translate(d1)` and `Translate(d2)` is the
`PluckerVec` `Init(P + d1 + d2, L)`; the same holds for `AnchoredPluckerVec`,
whose stored origin is then `P + d1 + d2`. -/
theorem PluckerVec.Translate_Translate_Init (P L d1 d2 : Vec K) :
    ((PluckerVec.Init P L).Translate d1).Translate d2
        = PluckerVec.Init ((P.add d1).add d2) L
    ∧ (((AnchoredPluckerVec.Init P L).Translate d1).Translate d2).toPluckerVec
        = PluckerVec.Init ((P.add d1).add d2) L
    ∧ (((AnchoredPluckerVec.Init P L).Translate d1).Translate d2).P = (P.add d1).add d2
    ∧ ((AnchoredPluckerVec.Init P L).Translate d1).Translate d2
        = AnchoredPluckerVec.Init ((P.add d1).add d2) L := by
  have h1 : ((PluckerVec.Init P L).Translate d1).Translate d2
      = PluckerVec.Init ((P.add d1).add d2) L := by
    simp only [PluckerVec.Init, PluckerVec.Translate, Vec.add, PluckerVec.mk.injEq,
      Vec.mk.injEq, true_and]
    refine ⟨?_, ?_, ?_⟩ <;> ring
  have h2 : (((AnchoredPluckerVec.Init P L).Translate d1).Translate d2).P
      = (P.add d1).add d2 := by
    simp only [AnchoredPluckerVec.Init, AnchoredPluckerVec.Translate, Vec.add]
  exact ⟨h1, h1, h2, AnchoredPluckerVec.eq_of_parts _ _ h1 h2⟩

/-- The accumulator `sum` of `PluckerVec.Dot` is the permuted inner product. -/
lemma PluckerVec.permutedInner_eq (p1 p2 : PluckerVec K) :
    p1.permutedInner p2 = 0
      + (p1.U.c0 * p2.V.c0 + p1.V.c0 * p2.U.c0)
      + (p1.U.c1 * p2.V.c1 + p1.V.c1 * p2.U.c1)
      + (p1.U.c2 * p2.V.c2 + p1.V.c2 * p2.U.c2) := by
  simp only [PluckerVec.permutedInner, Fin.sum_univ_three, Vec.comp, zero_add]

/-- C4, as stated, fails: on `axisRay` and `axisMoment` the permuted inner
product is `1`, and `Dot` with `flip = false` returns `-1`. -/
theorem PluckerVec.Dot_false_not_permutedInner :
    ¬ (axisRay.Dot axisMoment false = axisRay.permutedInner axisMoment
        ∧ axisRay.Dot axisMoment true = -axisRay.permutedInner axisMoment) := by
  rw [PluckerVec.permutedInner_eq]
  norm_num [PluckerVec.Dot, axisRay, axisMoment]

/-- C4, amended: with exact arithmetic, `p1.Dot(p2, true)` is the permuted inner
product `Σ_i (p1.U[i]*p2.V[i] + p1.V[i]*p2.U[i])` and `p1.Dot(p2, false)` is its
negation. -/
theorem PluckerVec.Dot_eq_permutedInner (p1 p2 : PluckerVec K) :
    p1.Dot p2 true = p1.permutedInner p2
    ∧ p1.Dot p2 false = -p1.permutedInner p2 := by
  rw [PluckerVec.permutedInner_eq]
  constructor <;> simp [PluckerVec.Dot]

/-- C5: for a ray `Init(P, L)` and an edge `InitFromSegment(A, B)`,
`Dot(e, flip)` vanishes exactly when `L . ((A-P) × (B-P))` does, and
`Dot(e, false)` is that scalar triple product. -/
theorem PluckerVec.Dot_Init_InitFromSegment (P L A B : Vec K) (flip : Bool) :
    ((PluckerVec.Init P L).Dot (PluckerVec.InitFromSegment A B) flip = 0
        ↔ L.triple (A.sub P) (B.sub P) = 0)
    ∧ (PluckerVec.Init P L).Dot (PluckerVec.InitFromSegment A B) false
        = L.triple (A.sub P) (B.sub P) := by
  have hf : (PluckerVec.Init P L).Dot (PluckerVec.InitFromSegment A B) false
      = L.triple (A.sub P) (B.sub P) := by
    simp only [PluckerVec.Dot, PluckerVec.Init, PluckerVec.InitFromSegment, Vec.triple,
      Vec.inner, Vec.cross, Vec.sub, Bool.false_eq_true, if_false]
    ring
  have ht : (PluckerVec.Init P L).Dot (PluckerVec.InitFromSegment A B) true
      = -L.triple (A.sub P) (B.sub P) := by
    simp only [PluckerVec.Dot, PluckerVec.Init, PluckerVec.InitFromSegment, Vec.triple,
      Vec.inner, Vec.cross, Vec.sub, if_true]
    ring
  refine ⟨?_, hf⟩
  cases flip
  · rw [hf]
  · rw [ht, neg_eq_zero]

/-- The threshold of `Tetra.Distance` is positive. -/
lemma distanceEps_pos : (0 : K) < distanceEps := by
  unfold distanceEps; positivity

/-- After the scan of `Tetra.Distance`, `dim` is the first axis whose direction
component exceeds the threshold in magnitude, when there is one. -/
lemma Tetra.Distance.scanDim_spec (U : Vec K)
    (hU : distanceEps < |U.c0| ∨ distanceEps < |U.c1| ∨ distanceEps < |U.c2|) :
    (Tetra.Distance.scanDim U = 0 ∧ distanceEps < |U.c0|)
    ∨ (Tetra.Distance.scanDim U = 1 ∧ |U.c0| ≤ distanceEps ∧ distanceEps < |U.c1|)
    ∨ (Tetra.Distance.scanDim U = 2 ∧ |U.c0| ≤ distanceEps ∧ |U.c1| ≤ distanceEps
        ∧ distanceEps < |U.c2|) := by
  have key : ∀ x : K, (x > distanceEps ∨ x < -distanceEps) ↔ distanceEps < |x| := by
    intro x
    rw [lt_abs, gt_iff_lt, lt_neg]
  unfold Tetra.Distance.scanDim
  by_cases h0 : distanceEps < |U.c0|
  · left
    exact ⟨by rw [if_pos ((key _).2 h0)], h0⟩
  · right
    rw [if_neg (fun h => h0 ((key _).1 h))]
    by_cases h1 : distanceEps < |U.c1|
    · left
      exact ⟨by rw [if_pos ((key _).2 h1)], not_lt.mp h0, h1⟩
    · right
      rw [if_neg (fun h => h1 ((key _).1 h))]
      have h2 : distanceEps < |U.c2| := by
        rcases hU with h | h | h
        · exact absurd h h0
        · exact absurd h h1
        · exact h
      exact ⟨by rw [if_pos ((key _).2 h2)], not_lt.mp h0, not_lt.mp h1, h2⟩

/-- One axis of `Tetra.Distance`: when the barycentric coordinate `x` of the
point equals `p + t0 * u` with `u` nonzero, the quotient is `t0`. -/
lemma Tetra.Distance.solve_axis (x p u t0 : K) (hu : u ≠ 0) (hx : x = p + t0 * u) :
    (x - p) / u = t0 := by
  rw [hx]; field_simp

/-- `Tetra.Distance` on a face whose three vertex indices are known and an axis
`dim` whose components are known. -/
lemma Tetra.Distance_eq (t : Tetra K) (ap : AnchoredPluckerVec K) (bary : TetraFaceBary K)
    (a b c : Vec K) (i0 i1 i2 : Int) (pa pb pc pd ud : K)
    (h0 : VertexIdx bary.face 0 = some i0) (h1 : VertexIdx bary.face 1 = some i1)
    (h2 : VertexIdx bary.face 2 = some i2)
    (ha : t.idx i0 = some a) (hb : t.idx i1 = some b) (hc : t.idx i2 = some c)
    (hpa : a.idx (Tetra.Distance.scanDim ap.U) = some pa)
    (hpb : b.idx (Tetra.Distance.scanDim ap.U) = some pb)
    (hpc : c.idx (Tetra.Distance.scanDim ap.U) = some pc)
    (hpd : ap.P.idx (Tetra.Distance.scanDim ap.U) = some pd)
    (hud : ap.U.idx (Tetra.Distance.scanDim ap.U) = some ud) :
    t.Distance ap bary
      = some (((bary.w.c0 / (bary.w.c0 + bary.w.c1 + bary.w.c2) * pa
          + bary.w.c1 / (bary.w.c0 + bary.w.c1 + bary.w.c2) * pb
          + bary.w.c2 / (bary.w.c0 + bary.w.c1 + bary.w.c2) * pc) - pd) / ud) := by
  simp only [Tetra.Distance, h0, h1, h2, ha, hb, hc, hpa, hpb, hpc, hpd, hud, zero_add,
    Option.bind_eq_bind, Option.some_bind, Option.pure_def]

/-- The barycentric point on a face whose three vertices are known. -/
lemma Tetra.baryPoint_eq (t : Tetra K) (bary : TetraFaceBary K)
    (a b c : Vec K) (i0 i1 i2 : Int)
    (h0 : VertexIdx bary.face 0 = some i0) (h1 : VertexIdx bary.face 1 = some i1)
    (h2 : VertexIdx bary.face 2 = some i2)
    (ha : t.idx i0 = some a) (hb : t.idx i1 = some b) (hc : t.idx i2 = some c) :
    t.baryPoint bary
      = some (((a.smul (bary.w.c0 / (bary.w.c0 + bary.w.c1 + bary.w.c2))).add
          (b.smul (bary.w.c1 / (bary.w.c0 + bary.w.c1 + bary.w.c2)))).add
          (c.smul (bary.w.c2 / (bary.w.c0 + bary.w.c1 + bary.w.c2)))) := by
  simp only [Tetra.baryPoint, h0, h1, h2, ha, hb, hc,
    Option.bind_eq_bind, Option.some_bind, Option.pure_def]

/-- The core of C2 on a face whose three vertices are known. -/
lemma Tetra.Distance_on_ray_aux (t : Tetra K) (ap : AnchoredPluckerVec K)
    (bary : TetraFaceBary K) (t0 : K) (a b c : Vec K) (i0 i1 i2 : Int)
    (h0 : VertexIdx bary.face 0 = some i0) (h1 : VertexIdx bary.face 1 = some i1)
    (h2 : VertexIdx bary.face 2 = some i2)
    (ha : t.idx i0 = some a) (hb : t.idx i1 = some b) (hc : t.idx i2 = some c)
    (hU : distanceEps < |ap.U.c0| ∨ distanceEps < |ap.U.c1| ∨ distanceEps < |ap.U.c2|)
    (hX : t.baryPoint bary = some (ap.P.add (ap.U.smul t0))) :
    t.Distance ap bary = some t0 := by
  have hne : ∀ x : K, distanceEps < |x| → x ≠ 0 := by
    intro x hx hx0
    rw [hx0, abs_zero] at hx
    exact absurd hx (not_lt.mpr distanceEps_pos.le)
  rw [Tetra.baryPoint_eq t bary a b c i0 i1 i2 h0 h1 h2 ha hb hc] at hX
  simp only [Vec.add, Vec.smul, Option.some.injEq, Vec.mk.injEq] at hX
  obtain ⟨hx0, hx1, hx2⟩ := hX
  rcases Tetra.Distance.scanDim_spec ap.U hU with ⟨hd, h⟩ | ⟨hd, _, h⟩ | ⟨hd, _, _, h⟩
  · rw [Tetra.Distance_eq t ap bary a b c i0 i1 i2 a.c0 b.c0 c.c0 ap.P.c0 ap.U.c0 h0 h1 h2
      ha hb hc (by rw [hd]; rfl) (by rw [hd]; rfl) (by rw [hd]; rfl) (by rw [hd]; rfl)
      (by rw [hd]; rfl)]
    exact congrArg some (Tetra.Distance.solve_axis _ _ _ _ (hne _ h) hx0)
  · rw [Tetra.Distance_eq t ap bary a b c i0 i1 i2 a.c1 b.c1 c.c1 ap.P.c1 ap.U.c1 h0 h1 h2
      ha hb hc (by rw [hd]; rfl) (by rw [hd]; rfl) (by rw [hd]; rfl) (by rw [hd]; rfl)
      (by rw [hd]; rfl)]
    exact congrArg some (Tetra.Distance.solve_axis _ _ _ _ (hne _ h) hx1)
  · rw [Tetra.Distance_eq t ap bary a b c i0 i1 i2 a.c2 b.c2 c.c2 ap.P.c2 ap.U.c2 h0 h1 h2
      ha hb hc (by rw [hd]; rfl) (by rw [hd]; rfl) (by rw [hd]; rfl) (by rw [hd]; rfl)
      (by rw [hd]; rfl)]
    exact congrArg some (Tetra.Distance.solve_axis _ _ _ _ (hne _ h) hx2)

/-- C2: for a face index in `0..3`, weights of nonzero sum and a direction with
a component of magnitude above `1e-6`, if the barycentric point
`Σ_i (w_i / (w0+w1+w2)) * t[VertexIdx(face, i)]` is `P + t0 * U`, then
`Tetra.Distance` returns `t0`; the axis it solves on is the first whose
direction component exceeds `1e-6` in magnitude. -/
theorem Tetra.Distance_on_ray (t : Tetra K) (ap : AnchoredPluckerVec K)
    (bary : TetraFaceBary K) (t0 : K)
    (hface : 0 ≤ bary.face ∧ bary.face < 4)
    (_hsum : bary.w.c0 + bary.w.c1 + bary.w.c2 ≠ 0)
    (hU : distanceEps < |ap.U.c0| ∨ distanceEps < |ap.U.c1| ∨ distanceEps < |ap.U.c2|)
    (hX : t.baryPoint bary = some (ap.P.add (ap.U.smul t0))) :
    t.Distance ap bary = some t0
    ∧ ((Tetra.Distance.scanDim ap.U = 0 ∧ distanceEps < |ap.U.c0|)
      ∨ (Tetra.Distance.scanDim ap.U = 1 ∧ |ap.U.c0| ≤ distanceEps ∧ distanceEps < |ap.U.c1|)
      ∨ (Tetra.Distance.scanDim ap.U = 2 ∧ |ap.U.c0| ≤ distanceEps
          ∧ |ap.U.c1| ≤ distanceEps ∧ distanceEps < |ap.U.c2|)) := by
  refine ⟨?_, Tetra.Distance.scanDim_spec ap.U hU⟩
  obtain ⟨hlo, hhi⟩ := hface
  have hcases : bary.face = 0 ∨ bary.face = 1 ∨ bary.face = 2 ∨ bary.face = 3 := by omega
  rcases hcases with hf | hf | hf | hf
  · exact Tetra.Distance_on_ray_aux t ap bary t0 t.v3 t.v2 t.v1 3 2 1
      (by rw [hf]; rfl) (by rw [hf]; rfl) (by rw [hf]; rfl) rfl rfl rfl hU hX
  · exact Tetra.Distance_on_ray_aux t ap bary t0 t.v2 t.v3 t.v0 2 3 0
      (by rw [hf]; rfl) (by rw [hf]; rfl) (by rw [hf]; rfl) rfl rfl rfl hU hX
  · exact Tetra.Distance_on_ray_aux t ap bary t0 t.v1 t.v0 t.v3 1 0 3
      (by rw [hf]; rfl) (by rw [hf]; rfl) (by rw [hf]; rfl) rfl rfl rfl hU hX
  · exact Tetra.Distance_on_ray_aux t ap bary t0 t.v0 t.v1 t.v2 0 1 2
      (by rw [hf]; rfl) (by rw [hf]; rfl) (by rw [hf]; rfl) rfl rfl rfl hU hX

/-- Witness of C2: face 3 of the unit tetrahedron, weights `(1, 1, 2)`, and the
ray from `(1/4, 1/2, -3)` along the third axis, which meets the barycentric
point `(1/4, 1/2, 0)` at parameter `3`. -/
theorem Tetra.Distance_on_ray_witness :
    (0 ≤ probeBary.face ∧ probeBary.face < 4)
    ∧ probeBary.w.c0 + probeBary.w.c1 + probeBary.w.c2 ≠ 0
    ∧ (distanceEps < |probeRay.U.c0| ∨ distanceEps < |probeRay.U.c1|
        ∨ distanceEps < |probeRay.U.c2|)
    ∧ (unitTetra : Tetra ℚ).baryPoint probeBary = some (probeRay.P.add (probeRay.U.smul 3))
    ∧ ((unitTetra : Tetra ℚ).Distance probeRay probeBary = some 3
      ∧ ((Tetra.Distance.scanDim probeRay.U = 0 ∧ distanceEps < |probeRay.U.c0|)
        ∨ (Tetra.Distance.scanDim probeRay.U = 1 ∧ |probeRay.U.c0| ≤ distanceEps
            ∧ distanceEps < |probeRay.U.c1|)
        ∨ (Tetra.Distance.scanDim probeRay.U = 2 ∧ |probeRay.U.c0| ≤ distanceEps
            ∧ |probeRay.U.c1| ≤ distanceEps ∧ distanceEps < |probeRay.U.c2|))) := by
  have h1 : 0 ≤ probeBary.face ∧ probeBary.face < 4 := by decide
  have h2 : probeBary.w.c0 + probeBary.w.c1 + probeBary.w.c2 ≠ 0 := by
    norm_num [probeBary]
  have h3 : distanceEps < |probeRay.U.c0| ∨ distanceEps < |probeRay.U.c1|
      ∨ distanceEps < |probeRay.U.c2| := by
    right; right
    norm_num [probeRay, AnchoredPluckerVec.Init, PluckerVec.Init, distanceEps]
  have h4 : (unitTetra : Tetra ℚ).baryPoint probeBary
      = some (probeRay.P.add (probeRay.U.smul 3)) := by
    rw [Tetra.baryPoint_eq unitTetra probeBary unitTetra.v0 unitTetra.v1 unitTetra.v2 0 1 2
      rfl rfl rfl rfl rfl rfl]
    norm_num [probeBary, probeRay, unitTetra, AnchoredPluckerVec.Init, PluckerVec.Init,
      Vec.add, Vec.smul]
  exact ⟨h1, h2, h3, h4, Tetra.Distance_on_ray unitTetra probeRay probeBary 3 h1 h2 h3 h4⟩

/-- The update `if rSqr > maxRSqr { maxRSqr = rSqr }` takes a maximum. -/
lemma Tetra.BoundingSphere.update_eq_max (m r : K) :
    (if r > m then r else m) = max m r := by
  split_ifs with h
  · exact (max_eq_right (le_of_lt h)).symm
  · exact (max_eq_left (not_lt.mp h)).symm

/-- The quantity `rSqr` of `Tetra.BoundingSphere` is the squared distance from
the point `(bx, by, bz)` to the vertex. -/
lemma Tetra.BoundingSphere.rSqr_eq_distSq (bx by_ bz : K) (v : Vec K) :
    Tetra.BoundingSphere.rSqr bx by_ bz v = Vec.distSq ⟨bx, by_, bz⟩ v := by
  simp only [Tetra.BoundingSphere.rSqr, Vec.distSq]; ring

/-- Squared distances are nonnegative. -/
lemma Vec.distSq_nonneg (a b : Vec K) : 0 ≤ a.distSq b := by
  unfold Vec.distSq; positivity

/-- The centre computed by `Tetra.BoundingSphere` is the centroid. -/
lemma Tetra.BoundingSphere_centre (sqrt : K → K) (t : Tetra K) :
    (t.BoundingSphere sqrt).centre = t.centroid := by
  simp only [Tetra.BoundingSphere, Sphere.centre, Tetra.centroid, Vec.add, Vec.smul,
    Vec.mk.injEq]
  refine ⟨?_, ?_, ?_⟩ <;> ring

/-- The radius computed by `Tetra.BoundingSphere` is the square root of the
largest squared distance from the centroid to a vertex. -/
lemma Tetra.BoundingSphere_R (sqrt : K → K) (t : Tetra K) :
    (t.BoundingSphere sqrt).R
      = sqrt (max (max (max (t.centroid.distSq t.v0) (t.centroid.distSq t.v1))
          (t.centroid.distSq t.v2)) (t.centroid.distSq t.v3)) := by
  have hc : t.centroid = ⟨(t.v0.c0 + t.v1.c0 + t.v2.c0 + t.v3.c0) / 4,
      (t.v0.c1 + t.v1.c1 + t.v2.c1 + t.v3.c1) / 4,
      (t.v0.c2 + t.v1.c2 + t.v2.c2 + t.v3.c2) / 4⟩ := by
    rw [← Tetra.BoundingSphere_centre sqrt t]
    rfl
  simp only [Tetra.BoundingSphere, List.foldl, Tetra.BoundingSphere.update_eq_max,
    Tetra.BoundingSphere.rSqr_eq_distSq, hc]

/-- An exact square root of a value below `R^2` is below `R`. -/
lemma exactSqrt_le (sqrt : K → K)
    (hsqrt : ∀ x : K, 0 ≤ x → 0 ≤ sqrt x ∧ sqrt x * sqrt x = x)
    (a R : K) (ha : 0 ≤ a) (hR : 0 ≤ R) (h : a ≤ R ^ 2) : sqrt a ≤ R := by
  obtain ⟨h0, h1⟩ := hsqrt a ha
  by_contra hc
  have hlt : R < sqrt a := not_le.mp hc
  have h2 : R * R < sqrt a * sqrt a := mul_lt_mul'' hlt hlt hR hR
  rw [h1, ← pow_two] at h2
  exact absurd h (not_le.mpr h2)

/-- An exact square root of `R^2` is `R`, for `R >= 0`. -/
lemma exactSqrt_eq (sqrt : K → K)
    (hsqrt : ∀ x : K, 0 ≤ x → 0 ≤ sqrt x ∧ sqrt x * sqrt x = x)
    (a R : K) (ha : 0 ≤ a) (hR : 0 ≤ R) (h : a = R ^ 2) : sqrt a = R := by
  obtain ⟨h0, h1⟩ := hsqrt a ha
  refine le_antisymm (exactSqrt_le sqrt hsqrt a R ha hR (le_of_eq h)) ?_
  by_contra hc
  have hlt : sqrt a < R := not_le.mp hc
  have h2 : sqrt a * sqrt a < R * R := mul_lt_mul'' hlt hlt h0 h0
  rw [h1, ← pow_two, h] at h2
  exact absurd h2 (lt_irrefl _)

/-- C6: with an exact square root, `Tetra.BoundingSphere` sets the centre to the
centroid `(V0+V1+V2+V3)/4` and the radius to `R >= 0` with `R^2` the largest
squared distance from the centroid to a vertex; every vertex is within `R` of
the centre and one vertex is at distance exactly `R`. -/
theorem Tetra.BoundingSphere_spec (sqrt : K → K)
    (hsqrt : ∀ x : K, 0 ≤ x → 0 ≤ sqrt x ∧ sqrt x * sqrt x = x) (t : Tetra K) :
    (t.BoundingSphere sqrt).centre = t.centroid
    ∧ 0 ≤ (t.BoundingSphere sqrt).R
    ∧ (t.BoundingSphere sqrt).R ^ 2
        = max (max (max (t.centroid.distSq t.v0) (t.centroid.distSq t.v1))
            (t.centroid.distSq t.v2)) (t.centroid.distSq t.v3)
    ∧ (∀ v : Vec K, v = t.v0 ∨ v = t.v1 ∨ v = t.v2 ∨ v = t.v3 →
        (t.BoundingSphere sqrt).centre.distSq v ≤ (t.BoundingSphere sqrt).R ^ 2
        ∧ sqrt ((t.BoundingSphere sqrt).centre.distSq v) ≤ (t.BoundingSphere sqrt).R)
    ∧ (∃ v : Vec K, (v = t.v0 ∨ v = t.v1 ∨ v = t.v2 ∨ v = t.v3)
        ∧ (t.BoundingSphere sqrt).centre.distSq v = (t.BoundingSphere sqrt).R ^ 2
        ∧ sqrt ((t.BoundingSphere sqrt).centre.distSq v) = (t.BoundingSphere sqrt).R) := by
  have hm : 0 ≤ max (max (max (t.centroid.distSq t.v0) (t.centroid.distSq t.v1))
      (t.centroid.distSq t.v2)) (t.centroid.distSq t.v3) :=
    le_trans (Vec.distSq_nonneg _ _) (le_max_right _ _)
  obtain ⟨hR0, hRR⟩ := hsqrt _ hm
  have hsq : (t.BoundingSphere sqrt).R ^ 2
      = max (max (max (t.centroid.distSq t.v0) (t.centroid.distSq t.v1))
          (t.centroid.distSq t.v2)) (t.centroid.distSq t.v3) := by
    rw [Tetra.BoundingSphere_R, pow_two, hRR]
  have hR : 0 ≤ (t.BoundingSphere sqrt).R := by
    rw [Tetra.BoundingSphere_R]; exact hR0
  refine ⟨Tetra.BoundingSphere_centre sqrt t, hR, hsq, ?_, ?_⟩
  · intro v hv
    have hle : (t.BoundingSphere sqrt).centre.distSq v ≤ (t.BoundingSphere sqrt).R ^ 2 := by
      rw [hsq, Tetra.BoundingSphere_centre]
      rcases hv with rfl | rfl | rfl | rfl
      · exact le_trans (le_trans (le_max_left _ _) (le_max_left _ _)) (le_max_left _ _)
      · exact le_trans (le_trans (le_max_right _ _) (le_max_left _ _)) (le_max_left _ _)
      · exact le_trans (le_max_right _ _) (le_max_left _ _)
      · exact le_max_right _ _
    exact ⟨hle, exactSqrt_le sqrt hsqrt _ _ (Vec.distSq_nonneg _ _) hR hle⟩
  · have hex : ∃ v : Vec K, (v = t.v0 ∨ v = t.v1 ∨ v = t.v2 ∨ v = t.v3)
        ∧ (t.BoundingSphere sqrt).centre.distSq v = (t.BoundingSphere sqrt).R ^ 2 := by
      rw [hsq, Tetra.BoundingSphere_centre]
      rcases max_choice (max (max (t.centroid.distSq t.v0) (t.centroid.distSq t.v1))
          (t.centroid.distSq t.v2)) (t.centroid.distSq t.v3) with h3 | h3
      · rcases max_choice (max (t.centroid.distSq t.v0) (t.centroid.distSq t.v1))
            (t.centroid.distSq t.v2) with h2 | h2
        · rcases max_choice (t.centroid.distSq t.v0) (t.centroid.distSq t.v1) with h1 | h1
          · exact ⟨t.v0, Or.inl rfl, by rw [h3, h2, h1]⟩
          · exact ⟨t.v1, Or.inr (Or.inl rfl), by rw [h3, h2, h1]⟩
        · exact ⟨t.v2, Or.inr (Or.inr (Or.inl rfl)), by rw [h3, h2]⟩
      · exact ⟨t.v3, Or.inr (Or.inr (Or.inr rfl)), by rw [h3]⟩
    obtain ⟨v, hv, he⟩ := hex
    exact ⟨v, hv, he, exactSqrt_eq sqrt hsqrt _ _ (Vec.distSq_nonneg _ _) hR he⟩

/-- Witness of C6: the unit tetrahedron over the reals with the real square root. -/
theorem Tetra.BoundingSphere_spec_witness :
    (∀ x : ℝ, 0 ≤ x → 0 ≤ Real.sqrt x ∧ Real.sqrt x * Real.sqrt x = x)
    ∧ (((unitTetra : Tetra ℝ).BoundingSphere Real.sqrt).centre = (unitTetra : Tetra ℝ).centroid
      ∧ 0 ≤ ((unitTetra : Tetra ℝ).BoundingSphere Real.sqrt).R
      ∧ ((unitTetra : Tetra ℝ).BoundingSphere Real.sqrt).R ^ 2
          = max (max (max ((unitTetra : Tetra ℝ).centroid.distSq (unitTetra : Tetra ℝ).v0)
              ((unitTetra : Tetra ℝ).centroid.distSq (unitTetra : Tetra ℝ).v1))
              ((unitTetra : Tetra ℝ).centroid.distSq (unitTetra : Tetra ℝ).v2))
              ((unitTetra : Tetra ℝ).centroid.distSq (unitTetra : Tetra ℝ).v3)
      ∧ (∀ v : Vec ℝ, v = (unitTetra : Tetra ℝ).v0 ∨ v = (unitTetra : Tetra ℝ).v1
            ∨ v = (unitTetra : Tetra ℝ).v2 ∨ v = (unitTetra : Tetra ℝ).v3 →
          ((unitTetra : Tetra ℝ).BoundingSphere Real.sqrt).centre.distSq v
              ≤ ((unitTetra : Tetra ℝ).BoundingSphere Real.sqrt).R ^ 2
          ∧ Real.sqrt (((unitTetra : Tetra ℝ).BoundingSphere Real.sqrt).centre.distSq v)
              ≤ ((unitTetra : Tetra ℝ).BoundingSphere Real.sqrt).R)
      ∧ (∃ v : Vec ℝ, (v = (unitTetra : Tetra ℝ).v0 ∨ v = (unitTetra : Tetra ℝ).v1
            ∨ v = (unitTetra : Tetra ℝ).v2 ∨ v = (unitTetra : Tetra ℝ).v3)
          ∧ ((unitTetra : Tetra ℝ).BoundingSphere Real.sqrt).centre.distSq v
              = ((unitTetra : Tetra ℝ).BoundingSphere Real.sqrt).R ^ 2
          ∧ Real.sqrt (((unitTetra : Tetra ℝ).BoundingSphere Real.sqrt).centre.distSq v)
              = ((unitTetra : Tetra ℝ).BoundingSphere Real.sqrt).R)) :=
  ⟨fun x hx => ⟨Real.sqrt_nonneg x, Real.mul_self_sqrt hx⟩,
    Tetra.BoundingSphere_spec Real.sqrt
      (fun x hx => ⟨Real.sqrt_nonneg x, Real.mul_self_sqrt hx⟩) unitTetra⟩

/-- C7: `Sphere.Intersect` returns true exactly when `(R1-R2)^2` exceeds the
squared distance between the centres, that is when `|R1-R2|` exceeds the
distance `d` between the centres; centres 10 apart with radii 3 and 4 give
false, and with radii 3 and 20 give true. -/
theorem Sphere.Intersect_iff (s1 s2 : Sphere K) :
    (s1.Intersect s2 = true
        ↔ (s1.R - s2.R) ^ 2 > (s1.X - s2.X) ^ 2 + (s1.Y - s2.Y) ^ 2 + (s1.Z - s2.Z) ^ 2)
    ∧ (∀ d : K, 0 ≤ d → d ^ 2 = s1.centre.distSq s2.centre →
        (s1.Intersect s2 = true ↔ d < |s1.R - s2.R|))
    ∧ (s1.centre.distSq s2.centre = 10 ^ 2 → s1.R = 3 → s2.R = 4 →
        s1.Intersect s2 = false)
    ∧ (s1.centre.distSq s2.centre = 10 ^ 2 → s1.R = 3 → s2.R = 20 →
        s1.Intersect s2 = true) := by
  have h : s1.Intersect s2 = true
      ↔ (s1.R - s2.R) ^ 2 > s1.centre.distSq s2.centre := by
    simp only [Sphere.Intersect, Sphere.centre, Vec.distSq, decide_eq_true_eq, pow_two]
  refine ⟨h, ?_, ?_, ?_⟩
  · intro d hd hdd
    rw [h, ← hdd, gt_iff_lt, sq_lt_sq, abs_of_nonneg hd]
  · intro hd h1 h2
    rw [← Bool.not_eq_true, h, hd, h1, h2]
    norm_num
  · intro hd h1 h2
    rw [h, hd, h1, h2]
    norm_num

/-- Witness of C7: centres `(0,0,0)` and `(10,0,0)` with radii 3 and 4. -/
theorem Sphere.Intersect_iff_witness :
    sphereA.centre.distSq sphereB.centre = 10 ^ 2 ∧ sphereA.R = 3 ∧ sphereB.R = 4
    ∧ sphereA.Intersect sphereB = false := by
  have hd : sphereA.centre.distSq sphereB.centre = 10 ^ 2 := by
    norm_num [sphereA, sphereB, Sphere.centre, Vec.distSq]
  exact ⟨hd, rfl, rfl, (Sphere.Intersect_iff sphereA sphereB).2.2.1 hd rfl rfl⟩

/-- C8: for a face `f` in `0..3` and a within-face edge `e` in `0..2`, the edge
index `EdgeIdx(f, e)` is in `0..5` and both end points given by `TetraVertices`
are among the three vertices `VertexIdx(f, 0..2)` of the face. -/
theorem EdgeIdx_TetraVertices_on_face (f e : Int) (hf : 0 ≤ f ∧ f < 4)
    (he : 0 ≤ e ∧ e < 3) :
    ∃ idx flip start stop,
      EdgeIdx f e = some (idx, flip) ∧ TetraVertices idx = some (start, stop)
      ∧ 0 ≤ idx ∧ idx < 6
      ∧ (VertexIdx f 0 = some start ∨ VertexIdx f 1 = some start ∨ VertexIdx f 2 = some start)
      ∧ (VertexIdx f 0 = some stop ∨ VertexIdx f 1 = some stop ∨ VertexIdx f 2 = some stop) := by
  obtain ⟨hf0, hf4⟩ := hf
  obtain ⟨he0, he3⟩ := he
  interval_cases f <;> interval_cases e <;>
    exact ⟨_, _, _, _, rfl, rfl, by decide, by decide, by decide, by decide⟩

/-- Witness of C8: face 2, edge 1 is the physical edge 4, from vertex 1 to vertex 3. -/
theorem EdgeIdx_TetraVertices_on_face_witness :
    ((0 : Int) ≤ 2 ∧ (2 : Int) < 4) ∧ ((0 : Int) ≤ 1 ∧ (1 : Int) < 3)
    ∧ ∃ idx flip start stop,
      EdgeIdx 2 1 = some (idx, flip) ∧ TetraVertices idx = some (start, stop)
      ∧ 0 ≤ idx ∧ idx < 6
      ∧ (VertexIdx 2 0 = some start ∨ VertexIdx 2 1 = some start ∨ VertexIdx 2 2 = some start)
      ∧ (VertexIdx 2 0 = some stop ∨ VertexIdx 2 1 = some stop ∨ VertexIdx 2 2 = some stop) :=
  ⟨by decide, by decide, EdgeIdx_TetraVertices_on_face 2 1 (by decide) (by decide)⟩

/-- C9: for a face `f` in `0..3` and `e` in `0..2`, the `e`-th edge of the face
runs from `a = VertexIdx(f, (e+1) mod 3)` to `b = VertexIdx(f, (e+2) mod 3)`;
the stored edge `TetraVertices(idx)` is `(a, b)` exactly when the flip flag is
false and `(b, a)` exactly when it is true, and one of the two holds. -/
theorem EdgeIdx_flip_direction (f e : Int) (hf : 0 ≤ f ∧ f < 4) (he : 0 ≤ e ∧ e < 3) :
    ∃ idx flip start stop a b,
      EdgeIdx f e = some (idx, flip) ∧ TetraVertices idx = some (start, stop)
      ∧ VertexIdx f ((e + 1) % 3) = some a ∧ VertexIdx f ((e + 2) % 3) = some b
      ∧ (flip = false ↔ (start, stop) = (a, b))
      ∧ (flip = true ↔ (start, stop) = (b, a))
      ∧ ((start, stop) = (a, b) ∨ (start, stop) = (b, a)) := by
  obtain ⟨hf0, hf4⟩ := hf
  obtain ⟨he0, he3⟩ := he
  interval_cases f <;> interval_cases e <;>
    exact ⟨_, _, _, _, _, _, rfl, rfl, rfl, rfl, by decide, by decide, by decide⟩

/-- Witness of C9: face 0, edge 0 runs from vertex 2 to vertex 1 and is stored
as the physical edge 3, from vertex 1 to vertex 2, with the flip flag set. -/
theorem EdgeIdx_flip_direction_witness :
    ((0 : Int) ≤ 0 ∧ (0 : Int) < 4) ∧ ((0 : Int) ≤ 0 ∧ (0 : Int) < 3)
    ∧ ∃ idx flip start stop a b,
      EdgeIdx 0 0 = some (idx, flip) ∧ TetraVertices idx = some (start, stop)
      ∧ VertexIdx 0 ((0 + 1) % 3) = some a ∧ VertexIdx 0 ((0 + 2) % 3) = some b
      ∧ (flip = false ↔ (start, stop) = (a, b))
      ∧ (flip = true ↔ (start, stop) = (b, a))
      ∧ ((start, stop) = (a, b) ∨ (start, stop) = (b, a)) :=
  ⟨by decide, by decide, EdgeIdx_flip_direction 0 0 (by decide) (by decide)⟩

/-- When no direction component exceeds the threshold in magnitude, the scan of
`Tetra.Distance` ends with `dim = 3`. -/
lemma Tetra.Distance.scanDim_none (U : Vec K)
    (h0 : |U.c0| ≤ distanceEps) (h1 : |U.c1| ≤ distanceEps) (h2 : |U.c2| ≤ distanceEps) :
    Tetra.Distance.scanDim U = 3 := by
  have key : ∀ x : K, |x| ≤ distanceEps → ¬ (x > distanceEps ∨ x < -distanceEps) := by
    intro x hx h
    rw [gt_iff_lt, lt_neg, ← lt_abs] at h
    exact absurd h (not_lt.mpr hx)
  unfold Tetra.Distance.scanDim
  rw [if_neg (key _ h0), if_neg (key _ h1), if_neg (key _ h2)]

/-- When no direction component exceeds the threshold in magnitude,
`Tetra.Distance` on a face index in `0..3` indexes a vertex at `dim = 3`: the
call panics. -/
lemma Tetra.Distance_no_axis (t : Tetra K) (ap : AnchoredPluckerVec K)
    (bary : TetraFaceBary K) (hface : 0 ≤ bary.face ∧ bary.face < 4)
    (h0 : |ap.U.c0| ≤ distanceEps) (h1 : |ap.U.c1| ≤ distanceEps)
    (h2 : |ap.U.c2| ≤ distanceEps) :
    t.Distance ap bary = none := by
  obtain ⟨hlo, hhi⟩ := hface
  have hd := Tetra.Distance.scanDim_none ap.U h0 h1 h2
  have hcases : bary.face = 0 ∨ bary.face = 1 ∨ bary.face = 2 ∨ bary.face = 3 := by omega
  have h3 : ∀ v : Vec K, v.idx 3 = none := fun _ => rfl
  have hv : ∀ v : Int, VertexIdx bary.face v = tableAt tetraIdxs bary.face v := fun _ => rfl
  rcases hcases with hf | hf | hf | hf <;>
    simp only [Tetra.Distance, hd, hv, hf, h3, tableAt, tetraIdxs]
    <;> rfl

/-- C10, the failing input: on the anchored ray of a segment whose two points
coincide (direction `(0,0,0)`), `Tetra.Distance` reads `t[...][3]`, an index
out of range, and panics instead of returning a number. -/
theorem Tetra.Distance_zero_direction_panics :
    (unitTetra : Tetra ℚ).Distance stillRay evenBary = none := by
  apply Tetra.Distance_no_axis
  · decide
  all_goals
    norm_num [stillRay, AnchoredPluckerVec.InitFromSegment, PluckerVec.InitFromSegment,
      distanceEps]

/-! ### Values of the index functions -/

/-- Row 0 of `tetraIdxs`, read through `VertexIdx`. -/
lemma VertexIdx_face0 :
    VertexIdx 0 0 = some 3 ∧ VertexIdx 0 1 = some 2
    ∧ VertexIdx 0 2 = some 1 :=
  ⟨rfl, rfl, rfl⟩

/-- Row 1 of `tetraIdxs`, read through `VertexIdx`. -/
lemma VertexIdx_face1 :
    VertexIdx 1 0 = some 2 ∧ VertexIdx 1 1 = some 3
    ∧ VertexIdx 1 2 = some 0 :=
  ⟨rfl, rfl, rfl⟩

/-- Row 2 of `tetraIdxs`, read through `VertexIdx`. -/
lemma VertexIdx_face2 :
    VertexIdx 2 0 = some 1 ∧ VertexIdx 2 1 = some 0
    ∧ VertexIdx 2 2 = some 3 :=
  ⟨rfl, rfl, rfl⟩

/-- Row 3 of `tetraIdxs`, read through `VertexIdx`. -/
lemma VertexIdx_face3 :
    VertexIdx 3 0 = some 0 ∧ VertexIdx 3 1 = some 1
    ∧ VertexIdx 3 2 = some 2 :=
  ⟨rfl, rfl, rfl⟩

/-- Indexing a tetrahedron at the constants `0..3`. -/
lemma Tetra.idx_const {F : Type} (t : Tetra F) :
    t.idx 0 = some t.v0 ∧ t.idx 1 = some t.v1 ∧ t.idx 2 = some t.v2 ∧ t.idx 3 = some t.v3 :=
  ⟨rfl, rfl, rfl, rfl⟩

/-! ### Second group of theorems -/

/-- Squared radius of the bounding sphere of the unit tetrahedron, for an exact
square root. -/
lemma unitTetra_BoundingSphere_R (sqrt : K → K) :
    ((unitTetra : Tetra K).BoundingSphere sqrt).R = sqrt (11 / 16) := by
  rw [Tetra.BoundingSphere_R]
  have hc : (unitTetra : Tetra K).centroid = ⟨1 / 4, 1 / 4, 1 / 4⟩ := by
    simp only [Tetra.centroid, unitTetra, Vec.add, Vec.smul, Vec.mk.injEq]
    norm_num
  have h0 : (unitTetra : Tetra K).centroid.distSq (unitTetra : Tetra K).v0 = 3 / 16 := by
    rw [hc]; simp only [unitTetra, Vec.distSq]; norm_num
  have h1 : (unitTetra : Tetra K).centroid.distSq (unitTetra : Tetra K).v1 = 11 / 16 := by
    rw [hc]; simp only [unitTetra, Vec.distSq]; norm_num
  have h2 : (unitTetra : Tetra K).centroid.distSq (unitTetra : Tetra K).v2 = 11 / 16 := by
    rw [hc]; simp only [unitTetra, Vec.distSq]; norm_num
  have h3 : (unitTetra : Tetra K).centroid.distSq (unitTetra : Tetra K).v3 = 11 / 16 := by
    rw [hc]; simp only [unitTetra, Vec.distSq]; norm_num
  rw [h0, h1, h2, h3, max_eq_right (by norm_num : (3 / 16 : K) ≤ 11 / 16), max_self, max_self]

/-- C11, as stated, fails: with the real square root the bounding sphere of the
unit tetrahedron does not have `R^2 = 3/16`. -/
theorem unitTetra_BoundingSphere_not_three_sixteenths :
    ¬ (((unitTetra : Tetra ℝ).BoundingSphere Real.sqrt).centre = ⟨1 / 4, 1 / 4, 1 / 4⟩
      ∧ ((unitTetra : Tetra ℝ).BoundingSphere Real.sqrt).R
          = Real.sqrt (((unitTetra : Tetra ℝ).BoundingSphere Real.sqrt).centre.distSq
              (unitTetra : Tetra ℝ).v0)
      ∧ ((unitTetra : Tetra ℝ).BoundingSphere Real.sqrt).R ^ 2 = 3 / 16) := by
  rintro ⟨_, _, h⟩
  rw [unitTetra_BoundingSphere_R, Real.sq_sqrt (by norm_num)] at h
  norm_num at h

/-- C11, amended: with an exact square root, the bounding sphere of the unit
tetrahedron has centre `(1/4, 1/4, 1/4)` and a radius equal to the distance from
the centre to the vertex `(1,0,0)` (the same as to `(0,1,0)` and `(0,0,1)`),
`R^2 = 11/16`; the vertex `(0,0,0)` is at squared distance `3/16`. -/
theorem unitTetra_BoundingSphere (sqrt : K → K)
    (hsqrt : ∀ x : K, 0 ≤ x → 0 ≤ sqrt x ∧ sqrt x * sqrt x = x) :
    ((unitTetra : Tetra K).BoundingSphere sqrt).centre = ⟨1 / 4, 1 / 4, 1 / 4⟩
    ∧ ((unitTetra : Tetra K).BoundingSphere sqrt).R ^ 2 = 11 / 16
    ∧ ((unitTetra : Tetra K).BoundingSphere sqrt).R
        = sqrt (((unitTetra : Tetra K).BoundingSphere sqrt).centre.distSq ⟨1, 0, 0⟩)
    ∧ ((unitTetra : Tetra K).BoundingSphere sqrt).R
        = sqrt (((unitTetra : Tetra K).BoundingSphere sqrt).centre.distSq ⟨0, 1, 0⟩)
    ∧ ((unitTetra : Tetra K).BoundingSphere sqrt).R
        = sqrt (((unitTetra : Tetra K).BoundingSphere sqrt).centre.distSq ⟨0, 0, 1⟩)
    ∧ ((unitTetra : Tetra K).BoundingSphere sqrt).centre.distSq ⟨0, 0, 0⟩ = 3 / 16 := by
  have hc : ((unitTetra : Tetra K).BoundingSphere sqrt).centre = ⟨1 / 4, 1 / 4, 1 / 4⟩ := by
    rw [Tetra.BoundingSphere_centre]
    simp only [Tetra.centroid, unitTetra, Vec.add, Vec.smul, Vec.mk.injEq]
    norm_num
  have hR := unitTetra_BoundingSphere_R (K := K) sqrt
  refine ⟨hc, ?_, ?_, ?_, ?_, ?_⟩
  · rw [hR, pow_two, (hsqrt _ (by norm_num)).2]
  · rw [hR, hc]; congr 1; simp only [Vec.distSq]; norm_num
  · rw [hR, hc]; congr 1; simp only [Vec.distSq]; norm_num
  · rw [hR, hc]; congr 1; simp only [Vec.distSq]; norm_num
  · rw [hc]; simp only [Vec.distSq]; norm_num

/-- Witness of C11, amended: the real square root. -/
theorem unitTetra_BoundingSphere_witness :
    (∀ x : ℝ, 0 ≤ x → 0 ≤ Real.sqrt x ∧ Real.sqrt x * Real.sqrt x = x)
    ∧ (((unitTetra : Tetra ℝ).BoundingSphere Real.sqrt).centre = ⟨1 / 4, 1 / 4, 1 / 4⟩
      ∧ ((unitTetra : Tetra ℝ).BoundingSphere Real.sqrt).R ^ 2 = 11 / 16
      ∧ ((unitTetra : Tetra ℝ).BoundingSphere Real.sqrt).R
          = Real.sqrt (((unitTetra : Tetra ℝ).BoundingSphere Real.sqrt).centre.distSq ⟨1, 0, 0⟩)
      ∧ ((unitTetra : Tetra ℝ).BoundingSphere Real.sqrt).R
          = Real.sqrt (((unitTetra : Tetra ℝ).BoundingSphere Real.sqrt).centre.distSq ⟨0, 1, 0⟩)
      ∧ ((unitTetra : Tetra ℝ).BoundingSphere Real.sqrt).R
          = Real.sqrt (((unitTetra : Tetra ℝ).BoundingSphere Real.sqrt).centre.distSq ⟨0, 0, 1⟩)
      ∧ ((unitTetra : Tetra ℝ).BoundingSphere Real.sqrt).centre.distSq ⟨0, 0, 0⟩ = 3 / 16) :=
  ⟨fun x hx => ⟨Real.sqrt_nonneg x, Real.mul_self_sqrt hx⟩,
    unitTetra_BoundingSphere Real.sqrt
      (fun x hx => ⟨Real.sqrt_nonneg x, Real.mul_self_sqrt hx⟩)⟩

/-- After `Orient(+1)` the signed volume is the absolute value of the input's. -/
lemma Tetra.signedVolume_Orient_one (t : Tetra K) :
    (t.Orient 1).signedVolume = |t.signedVolume| := by
  rw [Tetra.Orient_one]
  by_cases h : t.signedVolume < 0
  · rw [if_pos h, Tetra.signedVolume_swap01, abs_of_neg h]
  · rw [if_neg h, abs_of_nonneg (not_lt.mp h)]

/-- After `Orient(-1)` the signed volume is minus the absolute value of the input's. -/
lemma Tetra.signedVolume_Orient_neg_one (t : Tetra K) :
    (t.Orient (-1)).signedVolume = -|t.signedVolume| := by
  rw [Tetra.Orient_neg_one]
  by_cases h : 0 < t.signedVolume
  · rw [if_pos h, Tetra.signedVolume_swap01, abs_of_pos h]
  · rw [if_neg h, abs_of_nonpos (not_lt.mp h), neg_neg]

/-- On a tetrahedron of zero signed volume `Orient` never swaps. -/
lemma Tetra.Orient_of_signedVolume_eq_zero (t : Tetra K) (dir : Int)
    (h : t.signedVolume = 0) : t.Orient dir = t := by
  rw [Tetra.Orient_eq, h, if_neg]
  rintro (⟨h0, _⟩ | ⟨h0, _⟩) <;> exact lt_irrefl _ h0

/-- C12, as stated, fails: on the flat tetrahedron `Orient(+1)` and then
`Orient(-1)` both leave the vertices in place, and vertices 0 and 1 differ. -/
theorem Tetra.Orient_neg_one_after_one_flat :
    ¬ ((flatTetra.Orient 1).Orient (-1) = (flatTetra.Orient 1).swap01) := by
  have h0 : flatTetra.signedVolume = 0 := by
    simp [Tetra.signedVolume, flatTetra, Vec.triple, Vec.inner, Vec.cross, Vec.sub]
  rw [Tetra.Orient_of_signedVolume_eq_zero flatTetra 1 h0,
    Tetra.Orient_of_signedVolume_eq_zero flatTetra (-1) h0]
  simp [flatTetra, Tetra.swap01]

/-- C12, amended: with exact arithmetic, for a tetrahedron of nonzero signed
volume, `Orient(-1)` applied to the result `t1` of `Orient(+1)` returns `t1`
with vertices 0 and 1 exchanged. -/
theorem Tetra.Orient_neg_one_after_one (t : Tetra K) (h : t.signedVolume ≠ 0) :
    (t.Orient 1).Orient (-1) = (t.Orient 1).swap01
    ∧ ((t.Orient 1).Orient (-1)).v0 = (t.Orient 1).v1
    ∧ ((t.Orient 1).Orient (-1)).v1 = (t.Orient 1).v0
    ∧ ((t.Orient 1).Orient (-1)).v2 = (t.Orient 1).v2
    ∧ ((t.Orient 1).Orient (-1)).v3 = (t.Orient 1).v3 := by
  have hpos : 0 < (t.Orient 1).signedVolume := by
    rw [Tetra.signedVolume_Orient_one]; exact abs_pos.mpr h
  have heq : (t.Orient 1).Orient (-1) = (t.Orient 1).swap01 := by
    rw [Tetra.Orient_neg_one (t.Orient 1), if_pos hpos]
  rw [heq]
  exact ⟨rfl, rfl, rfl, rfl, rfl⟩

/-- Witness of C12, amended: the unit tetrahedron, of signed volume 1. -/
theorem Tetra.Orient_neg_one_after_one_witness :
    (unitTetra : Tetra ℚ).signedVolume ≠ 0
    ∧ (((unitTetra : Tetra ℚ).Orient 1).Orient (-1) = ((unitTetra : Tetra ℚ).Orient 1).swap01
      ∧ (((unitTetra : Tetra ℚ).Orient 1).Orient (-1)).v0 = ((unitTetra : Tetra ℚ).Orient 1).v1
      ∧ (((unitTetra : Tetra ℚ).Orient 1).Orient (-1)).v1 = ((unitTetra : Tetra ℚ).Orient 1).v0
      ∧ (((unitTetra : Tetra ℚ).Orient 1).Orient (-1)).v2 = ((unitTetra : Tetra ℚ).Orient 1).v2
      ∧ (((unitTetra : Tetra ℚ).Orient 1).Orient (-1)).v3
          = ((unitTetra : Tetra ℚ).Orient 1).v3) := by
  have h : (unitTetra : Tetra ℚ).signedVolume ≠ 0 := by
    simp [Tetra.signedVolume, unitTetra, Vec.triple, Vec.inner, Vec.cross, Vec.sub]
  exact ⟨h, Tetra.Orient_neg_one_after_one unitTetra h⟩

/-- C13: `Orient(dir)` applied twice, for `dir` in `{+1, -1}`, gives the same
tetrahedron as `Orient(dir)` applied once. -/
theorem Tetra.Orient_idempotent (t : Tetra K) (dir : Int) (hdir : dir = 1 ∨ dir = -1) :
    (t.Orient dir).Orient dir = t.Orient dir := by
  rcases hdir with rfl | rfl
  · rw [Tetra.Orient_one (t.Orient 1), if_neg]
    rw [Tetra.signedVolume_Orient_one]
    exact not_lt.mpr (abs_nonneg _)
  · rw [Tetra.Orient_neg_one (t.Orient (-1)), if_neg]
    rw [Tetra.signedVolume_Orient_neg_one]
    exact not_lt.mpr (neg_nonpos.mpr (abs_nonneg _))

/-- Witness of C13: `Orient(+1)` twice on a tetrahedron that the first call swaps. -/
theorem Tetra.Orient_idempotent_witness :
    ((1 : Int) = 1 ∨ (1 : Int) = -1)
    ∧ (mirrorTetra.Orient 1).Orient 1 = mirrorTetra.Orient 1 :=
  ⟨Or.inl rfl, Tetra.Orient_idempotent mirrorTetra 1 (Or.inl rfl)⟩

/-- The sign flag of `SignDot` is the sign of the product it returns. -/
lemma PluckerVec.SignDot_flag (p1 p2 : PluckerVec K) (flip : Bool) :
    (p1.SignDot p2 flip).1 = p1.Dot p2 flip
    ∧ (p1.SignDot p2 flip).2
        = if p1.Dot p2 flip = 0 then 0 else if 0 < p1.Dot p2 flip then 1 else -1 := by
  unfold PluckerVec.SignDot
  simp only [gt_iff_lt]
  split_ifs <;> exact ⟨rfl, rfl⟩

/-- A vector whose cross product with a nonzero vector `a` vanishes is a scalar
multiple of `a`. -/
lemma Vec.exists_smul_of_cross_eq_zero (a b : Vec K) (ha : a ≠ ⟨0, 0, 0⟩)
    (h0 : a.c1 * b.c2 = a.c2 * b.c1) (h1 : a.c2 * b.c0 = a.c0 * b.c2)
    (h2 : a.c0 * b.c1 = a.c1 * b.c0) : ∃ s : K, b = a.smul s := by
  have hcomp : a.c0 ≠ 0 ∨ a.c1 ≠ 0 ∨ a.c2 ≠ 0 := by
    by_contra hne
    push_neg at hne
    apply ha
    cases a
    simp only [Vec.mk.injEq]
    exact hne
  rcases hcomp with hc | hc | hc
  · refine ⟨b.c0 / a.c0, ?_⟩
    cases b
    simp only [Vec.smul, Vec.mk.injEq] at h0 h1 h2 ⊢
    refine ⟨?_, ?_, ?_⟩ <;> field_simp <;> linarith
  · refine ⟨b.c1 / a.c1, ?_⟩
    cases b
    simp only [Vec.smul, Vec.mk.injEq] at h0 h1 h2 ⊢
    refine ⟨?_, ?_, ?_⟩ <;> field_simp <;> linarith
  · refine ⟨b.c2 / a.c2, ?_⟩
    cases b
    simp only [Vec.smul, Vec.mk.injEq] at h0 h1 h2 ⊢
    refine ⟨?_, ?_, ?_⟩ <;> field_simp <;> linarith

/-- C15: for nonzero directions `L`, `L'`, `Init(P, L)` and `Init(P', L')` are
the same `PluckerVec` exactly when `L = L'` and `P' - P` is a scalar multiple
of `L`. -/
theorem PluckerVec.Init_eq_iff (P L P' L' : Vec K) (hL : L ≠ ⟨0, 0, 0⟩)
    (_hL' : L' ≠ ⟨0, 0, 0⟩) :
    PluckerVec.Init P L = PluckerVec.Init P' L'
      ↔ L = L' ∧ ∃ s : K, P'.sub P = L.smul s := by
  constructor
  · intro h
    simp only [PluckerVec.Init, PluckerVec.mk.injEq, Vec.mk.injEq] at h
    obtain ⟨hLL, h0, h1, h2⟩ := h
    subst hLL
    refine ⟨rfl, Vec.exists_smul_of_cross_eq_zero L (P'.sub P) hL ?_ ?_ ?_⟩
    · simp only [Vec.sub]; linarith
    · simp only [Vec.sub]; linarith
    · simp only [Vec.sub]; linarith
  · rintro ⟨rfl, s, hs⟩
    simp only [Vec.sub, Vec.smul, Vec.mk.injEq] at hs
    obtain ⟨e0, e1, e2⟩ := hs
    have p0 : P'.c0 = P.c0 + s * L.c0 := by linarith
    have p1 : P'.c1 = P.c1 + s * L.c1 := by linarith
    have p2 : P'.c2 = P.c2 + s * L.c2 := by linarith
    simp only [PluckerVec.Init, PluckerVec.mk.injEq, Vec.mk.injEq, true_and, p0, p1, p2]
    refine ⟨?_, ?_, ?_⟩ <;> ring

/-- Witness of C15: the first axis, anchored at the origin and at `(2,0,0)`. -/
theorem PluckerVec.Init_eq_iff_witness :
    (⟨1, 0, 0⟩ : Vec ℚ) ≠ ⟨0, 0, 0⟩ ∧ (⟨1, 0, 0⟩ : Vec ℚ) ≠ ⟨0, 0, 0⟩
    ∧ (PluckerVec.Init (⟨0, 0, 0⟩ : Vec ℚ) ⟨1, 0, 0⟩ = PluckerVec.Init ⟨2, 0, 0⟩ ⟨1, 0, 0⟩
      ↔ (⟨1, 0, 0⟩ : Vec ℚ) = ⟨1, 0, 0⟩
        ∧ ∃ s : ℚ, (⟨2, 0, 0⟩ : Vec ℚ).sub ⟨0, 0, 0⟩ = (⟨1, 0, 0⟩ : Vec ℚ).smul s) := by
  have h : (⟨1, 0, 0⟩ : Vec ℚ) ≠ ⟨0, 0, 0⟩ := by simp
  exact ⟨h, h, PluckerVec.Init_eq_iff ⟨0, 0, 0⟩ ⟨1, 0, 0⟩ ⟨2, 0, 0⟩ ⟨1, 0, 0⟩ h h⟩

/-- C16: for edge indices `i`, `j` in `0..5`, `pluckerTetraFaceShare[i][j]` is
true exactly when `i` and `j` differ and both occur among the edge indices
`EdgeIdx(f, 0..2)` of one face `f`; the table is symmetric. -/
theorem pluckerTetraFaceShare_iff (i j : Int) (hi : 0 ≤ i ∧ i < 6) (hj : 0 ≤ j ∧ j < 6) :
    (tableAt pluckerTetraFaceShare i j = some true
      ↔ i ≠ j ∧ ∃ f : Fin 4, ∃ e1 e2 : Fin 3,
          (EdgeIdx ((f : Nat) : Int) ((e1 : Nat) : Int)).map Prod.fst = some i
          ∧ (EdgeIdx ((f : Nat) : Int) ((e2 : Nat) : Int)).map Prod.fst = some j)
    ∧ (tableAt pluckerTetraFaceShare i j = some true
        ∨ tableAt pluckerTetraFaceShare i j = some false)
    ∧ tableAt pluckerTetraFaceShare i j = tableAt pluckerTetraFaceShare j i := by
  obtain ⟨hi0, hi6⟩ := hi
  obtain ⟨hj0, hj6⟩ := hj
  interval_cases i <;> interval_cases j <;> decide

/-- Witness of C16: edges 0 (0-1) and 5 (2-3) are opposite and share no face. -/
theorem pluckerTetraFaceShare_iff_witness :
    ((0 : Int) ≤ 0 ∧ (0 : Int) < 6) ∧ ((0 : Int) ≤ 5 ∧ (5 : Int) < 6)
    ∧ ((tableAt pluckerTetraFaceShare 0 5 = some true
        ↔ (0 : Int) ≠ 5 ∧ ∃ f : Fin 4, ∃ e1 e2 : Fin 3,
            (EdgeIdx ((f : Nat) : Int) ((e1 : Nat) : Int)).map Prod.fst = some 0
            ∧ (EdgeIdx ((f : Nat) : Int) ((e2 : Nat) : Int)).map Prod.fst = some 5)
      ∧ (tableAt pluckerTetraFaceShare 0 5 = some true
          ∨ tableAt pluckerTetraFaceShare 0 5 = some false)
      ∧ tableAt pluckerTetraFaceShare 0 5 = tableAt pluckerTetraFaceShare 5 0) :=
  ⟨by decide, by decide, pluckerTetraFaceShare_iff 0 5 (by decide) (by decide)⟩

/-- C17: for every face `f` in `0..3`, the orientation determinant of the face
relative to its opposite vertex, `(t[b]-t[a]) × (t[c]-t[a]) . (t[f]-t[a])` with
`a, b, c = VertexIdx(f, 0..2)`, is the signed volume
`(t[1]-t[0]) × (t[2]-t[0]) . (t[3]-t[0])` of the tetrahedron; exchanging
vertices 0 and 1 negates the determinant of every face. -/
theorem Tetra.faceDet_eq_signedVolume (t : Tetra K) (f : Int) (hf : 0 ≤ f ∧ f < 4) :
    t.faceDet f = some t.signedVolume
    ∧ t.signedVolume = ((t.v1.sub t.v0).cross (t.v2.sub t.v0)).inner (t.v3.sub t.v0)
    ∧ t.swap01.faceDet f = some (-t.signedVolume) := by
  obtain ⟨hf0, hf4⟩ := hf
  have hvol : t.signedVolume
      = ((t.v1.sub t.v0).cross (t.v2.sub t.v0)).inner (t.v3.sub t.v0) := by
    simp only [Tetra.signedVolume, Vec.triple, Vec.inner, Vec.cross, Vec.sub]; ring
  have hface : ∀ u : Tetra K, u.faceDet f = some u.signedVolume := by
    intro u
    interval_cases f
    all_goals
      simp only [Tetra.faceDet, VertexIdx_face0, VertexIdx_face1, VertexIdx_face2,
        VertexIdx_face3, (Tetra.idx_const u).1, (Tetra.idx_const u).2.1,
        (Tetra.idx_const u).2.2.1, (Tetra.idx_const u).2.2.2, Option.bind_eq_bind,
        Option.some_bind, Option.pure_def, Option.some.injEq, Tetra.signedVolume,
        Vec.triple, Vec.inner, Vec.cross, Vec.sub]
      ring
  exact ⟨hface t, hvol, by rw [hface, Tetra.signedVolume_swap01]⟩

/-- Witness of C17: face 0 of the unit tetrahedron. -/
theorem Tetra.faceDet_eq_signedVolume_witness :
    ((0 : Int) ≤ 0 ∧ (0 : Int) < 4)
    ∧ ((unitTetra : Tetra ℚ).faceDet 0 = some (unitTetra : Tetra ℚ).signedVolume
      ∧ (unitTetra : Tetra ℚ).signedVolume
          = (((unitTetra : Tetra ℚ).v1.sub (unitTetra : Tetra ℚ).v0).cross
              ((unitTetra : Tetra ℚ).v2.sub (unitTetra : Tetra ℚ).v0)).inner
              ((unitTetra : Tetra ℚ).v3.sub (unitTetra : Tetra ℚ).v0)
      ∧ (unitTetra : Tetra ℚ).swap01.faceDet 0
          = some (-(unitTetra : Tetra ℚ).signedVolume)) :=
  ⟨by decide, Tetra.faceDet_eq_signedVolume unitTetra 0 (by decide)⟩

/-- The edge ray of a translated segment is the translated edge ray. -/
lemma PluckerVec.InitFromSegment_translate (a b dx : Vec K) :
    PluckerVec.InitFromSegment
        ⟨a.c0 + dx.c0, a.c1 + dx.c1, a.c2 + dx.c2⟩ ⟨b.c0 + dx.c0, b.c1 + dx.c1, b.c2 + dx.c2⟩
      = (PluckerVec.InitFromSegment a b).Translate dx := by
  simp only [PluckerVec.InitFromSegment, PluckerVec.Translate, PluckerVec.mk.injEq,
    Vec.mk.injEq]
  refine ⟨⟨?_, ?_, ?_⟩, ?_, ?_, ?_⟩ <;> ring

/-- C18: `PluckerTetra.Init` of the translated tetrahedron is
`PluckerTetra.Translate` of `PluckerTetra.Init` of the tetrahedron, edge by
edge in the order 0-1, 0-2, 0-3, 1-2, 1-3, 2-3; the direction `U` of every edge
is unchanged by the translation. -/
theorem PluckerTetra.Init_Translate (t : Tetra K) (dx : Vec K) :
    PluckerTetra.Init (t.Translate dx) = (PluckerTetra.Init t).Translate dx
    ∧ (PluckerTetra.Init (t.Translate dx)).e0 = ((PluckerTetra.Init t).e0).Translate dx
    ∧ (PluckerTetra.Init (t.Translate dx)).e1 = ((PluckerTetra.Init t).e1).Translate dx
    ∧ (PluckerTetra.Init (t.Translate dx)).e2 = ((PluckerTetra.Init t).e2).Translate dx
    ∧ (PluckerTetra.Init (t.Translate dx)).e3 = ((PluckerTetra.Init t).e3).Translate dx
    ∧ (PluckerTetra.Init (t.Translate dx)).e4 = ((PluckerTetra.Init t).e4).Translate dx
    ∧ (PluckerTetra.Init (t.Translate dx)).e5 = ((PluckerTetra.Init t).e5).Translate dx
    ∧ (PluckerTetra.Init (t.Translate dx)).e0.U = (PluckerTetra.Init t).e0.U
    ∧ (PluckerTetra.Init (t.Translate dx)).e1.U = (PluckerTetra.Init t).e1.U
    ∧ (PluckerTetra.Init (t.Translate dx)).e2.U = (PluckerTetra.Init t).e2.U
    ∧ (PluckerTetra.Init (t.Translate dx)).e3.U = (PluckerTetra.Init t).e3.U
    ∧ (PluckerTetra.Init (t.Translate dx)).e4.U = (PluckerTetra.Init t).e4.U
    ∧ (PluckerTetra.Init (t.Translate dx)).e5.U = (PluckerTetra.Init t).e5.U := by
  have h : PluckerTetra.Init (t.Translate dx) = (PluckerTetra.Init t).Translate dx := by
    simp only [PluckerTetra.Init, PluckerTetra.Translate, Tetra.Translate,
      PluckerVec.InitFromSegment_translate]
  rw [h]
  exact ⟨rfl, rfl, rfl, rfl, rfl, rfl, rfl, rfl, rfl, rfl, rfl, rfl, rfl⟩

/-- C19: every edge index `i` in `0..5` is `EdgeIdx(f, e)` for exactly two pairs
`(f, e)`, on two different faces and with different flip flags; within a face
the three edge indices are pairwise distinct. -/
theorem EdgeIdx_two_faces (i : Int) (hi : 0 ≤ i ∧ i < 6) :
    (∃ f1 f2 : Fin 4, ∃ e1 e2 : Fin 3, ∃ b1 b2 : Bool,
      f1 ≠ f2 ∧ b1 ≠ b2
      ∧ EdgeIdx ((f1 : Nat) : Int) ((e1 : Nat) : Int) = some (i, b1)
      ∧ EdgeIdx ((f2 : Nat) : Int) ((e2 : Nat) : Int) = some (i, b2)
      ∧ ∀ f : Fin 4, ∀ e : Fin 3,
          (EdgeIdx ((f : Nat) : Int) ((e : Nat) : Int)).map Prod.fst = some i →
            (f = f1 ∧ e = e1) ∨ (f = f2 ∧ e = e2))
    ∧ (∀ f : Fin 4,
        (EdgeIdx ((f : Nat) : Int) 0).map Prod.fst ≠ (EdgeIdx ((f : Nat) : Int) 1).map Prod.fst
        ∧ (EdgeIdx ((f : Nat) : Int) 0).map Prod.fst ≠ (EdgeIdx ((f : Nat) : Int) 2).map Prod.fst
        ∧ (EdgeIdx ((f : Nat) : Int) 1).map Prod.fst
            ≠ (EdgeIdx ((f : Nat) : Int) 2).map Prod.fst) := by
  obtain ⟨hi0, hi6⟩ := hi
  refine ⟨?_, by decide⟩
  interval_cases i
  · exact ⟨2, 3, 2, 2, true, false, by decide, by decide, rfl, rfl, by decide⟩
  · exact ⟨1, 3, 1, 1, false, true, by decide, by decide, rfl, rfl, by decide⟩
  · exact ⟨1, 2, 0, 0, true, false, by decide, by decide, rfl, rfl, by decide⟩
  · exact ⟨0, 3, 0, 0, true, false, by decide, by decide, rfl, rfl, by decide⟩
  · exact ⟨0, 2, 1, 1, false, true, by decide, by decide, rfl, rfl, by decide⟩
  · exact ⟨0, 1, 2, 2, true, false, by decide, by decide, rfl, rfl, by decide⟩

/-- Witness of C19: edge 4 (1-3) is edge 1 of face 0, unflipped, and edge 1 of
face 2, flipped. -/
theorem EdgeIdx_two_faces_witness :
    ((0 : Int) ≤ 4 ∧ (4 : Int) < 6)
    ∧ ((∃ f1 f2 : Fin 4, ∃ e1 e2 : Fin 3, ∃ b1 b2 : Bool,
        f1 ≠ f2 ∧ b1 ≠ b2
        ∧ EdgeIdx ((f1 : Nat) : Int) ((e1 : Nat) : Int) = some (4, b1)
        ∧ EdgeIdx ((f2 : Nat) : Int) ((e2 : Nat) : Int) = some (4, b2)
        ∧ ∀ f : Fin 4, ∀ e : Fin 3,
            (EdgeIdx ((f : Nat) : Int) ((e : Nat) : Int)).map Prod.fst = some 4 →
              (f = f1 ∧ e = e1) ∨ (f = f2 ∧ e = e2))
      ∧ (∀ f : Fin 4,
          (EdgeIdx ((f : Nat) : Int) 0).map Prod.fst ≠ (EdgeIdx ((f : Nat) : Int) 1).map Prod.fst
          ∧ (EdgeIdx ((f : Nat) : Int) 0).map Prod.fst
              ≠ (EdgeIdx ((f : Nat) : Int) 2).map Prod.fst
          ∧ (EdgeIdx ((f : Nat) : Int) 1).map Prod.fst
              ≠ (EdgeIdx ((f : Nat) : Int) 2).map Prod.fst)) :=
  ⟨by decide, EdgeIdx_two_faces 4 (by decide)⟩

/-! ### float32 evaluation of `Dot` and `SignDot` -/

/-- The nearest integer is at least the floor. -/
lemma F32.floor_le_roundHalfEven (x : ℚ) : ⌊x⌋ ≤ F32.roundHalfEven x := by
  unfold F32.roundHalfEven
  simp only
  split_ifs <;> omega

/-- Zero rounds to zero. -/
lemma F32.round_zero : F32.round 0 = F32.fin 0 := by
  simp [F32.round]

/-- A rational of magnitude `2^128` or more rounds to an infinity of its sign. -/
lemma F32.round_overflow (q : ℚ) (h : (2 : ℚ) ^ (128 : Nat) ≤ |q|) :
    F32.round q = F32.inf (decide (q < 0)) := by
  have hpos : 0 < |q| := lt_of_lt_of_le (by positivity) h
  have hq : q ≠ 0 := abs_pos.mp hpos
  have hlog : (128 : Int) ≤ Int.log 2 |q| := by
    rw [← Int.zpow_le_iff_le_log (by norm_num) hpos]
    have h2 : (((2 : Nat) : ℚ)) ^ (128 : Int) = (2 : ℚ) ^ (128 : Nat) := by norm_num
    rw [h2]; exact h
  have hself : (((2 : Nat) : ℚ)) ^ (Int.log 2 |q|) ≤ |q| :=
    Int.zpow_log_le_self (by norm_num) hpos
  have hmax : max (Int.log 2 |q|) (-126) = Int.log 2 |q| := max_eq_left (by omega)
  have hulp : (0 : ℚ) < (2 : ℚ) ^ (Int.log 2 |q| - 23) := by positivity
  have hsplit : (2 : ℚ) ^ (23 : Nat) * (2 : ℚ) ^ (Int.log 2 |q| - 23)
      = (((2 : Nat) : ℚ)) ^ (Int.log 2 |q|) := by
    have h3 : (2 : ℚ) ^ (23 : Nat) = (2 : ℚ) ^ (23 : Int) := by norm_num
    rw [h3, ← zpow_add₀ (by norm_num : (2 : ℚ) ≠ 0)]
    norm_num
  have hc : ((2 ^ 23 : Int) : ℚ) = (2 : ℚ) ^ (23 : Nat) := by norm_num
  have hx : ((2 ^ 23 : Int) : ℚ) ≤ |q| / (2 : ℚ) ^ (Int.log 2 |q| - 23) := by
    rw [le_div_iff₀ hulp, hc, hsplit]; exact hself
  have hn : (2 ^ 23 : Int) ≤ F32.roundHalfEven (|q| / (2 : ℚ) ^ (Int.log 2 |q| - 23)) :=
    le_trans (Int.le_floor.mpr hx) (F32.floor_le_roundHalfEven _)
  have h4 : (2 : ℚ) ^ (23 : Nat)
      ≤ (F32.roundHalfEven (|q| / (2 : ℚ) ^ (Int.log 2 |q| - 23)) : ℚ) := by
    rw [← hc]; exact_mod_cast hn
  have h5 : (2 : ℚ) ^ (128 : Nat) ≤ (((2 : Nat) : ℚ)) ^ (Int.log 2 |q|) := by
    have h6 : (2 : ℚ) ^ (128 : Nat) = (((2 : Nat) : ℚ)) ^ (128 : Int) := by norm_num
    rw [h6]
    exact zpow_le_zpow_right₀ (by norm_num) hlog
  have hr : (2 : ℚ) ^ (128 : Nat)
      ≤ (F32.roundHalfEven (|q| / (2 : ℚ) ^ (Int.log 2 |q| - 23)) : ℚ)
          * (2 : ℚ) ^ (Int.log 2 |q| - 23) :=
    calc (2 : ℚ) ^ (128 : Nat) ≤ (((2 : Nat) : ℚ)) ^ (Int.log 2 |q|) := h5
      _ = (2 : ℚ) ^ (23 : Nat) * (2 : ℚ) ^ (Int.log 2 |q| - 23) := hsplit.symm
      _ ≤ (F32.roundHalfEven (|q| / (2 : ℚ) ^ (Int.log 2 |q| - 23)) : ℚ)
            * (2 : ℚ) ^ (Int.log 2 |q| - 23) :=
          mul_le_mul_of_nonneg_right h4 (le_of_lt hulp)
  unfold F32.round
  simp only [if_neg hq, hmax, if_pos hr]

/-- In `float32`, `2^100 * 2^100` overflows to `+Inf` and `2^100 * (-2^100)` to `-Inf`. -/
lemma F32.round_huge :
    F32.round ((2 : ℚ) ^ 100 * 2 ^ 100) = F32.inf false
    ∧ F32.round ((2 : ℚ) ^ 100 * -2 ^ 100) = F32.inf true := by
  constructor
  · rw [F32.round_overflow _ (by rw [abs_of_nonneg (by positivity)]; norm_num)]
    simp only [F32.inf.injEq, decide_eq_false_iff_not, not_lt]
    positivity
  · have hneg : (2 : ℚ) ^ 100 * -2 ^ 100 < 0 := by norm_num
    rw [F32.round_overflow _ (by rw [abs_of_neg hneg]; norm_num)]
    simp only [F32.inf.injEq, decide_eq_true_eq]
    exact hneg

/-- In `float32` the accumulator of `Dot` on `hugeRay` and `hugeEdge` is
`0 + (+Inf + 0) + (0 + -Inf) + (0 + 0) = NaN`, for either value of `flip`. -/
lemma PluckerVec.Dot_huge (flip : Bool) : hugeRay.Dot hugeEdge flip = F32.nan := by
  have hadd : ∀ a b : F32, a + b = F32.add a b := fun _ _ => rfl
  have hmul : ∀ a b : F32, a * b = F32.mul a b := fun _ _ => rfl
  have hneg : ∀ a : F32, -a = F32.neg a := fun _ => rfl
  have hzero : (0 : F32) = F32.fin 0 := rfl
  have hsum : (0 : F32)
      + (hugeRay.U.c0 * hugeEdge.V.c0 + hugeRay.V.c0 * hugeEdge.U.c0)
      + (hugeRay.U.c1 * hugeEdge.V.c1 + hugeRay.V.c1 * hugeEdge.U.c1)
      + (hugeRay.U.c2 * hugeEdge.V.c2 + hugeRay.V.c2 * hugeEdge.U.c2) = F32.nan := by
    simp only [hugeRay, hugeEdge, hadd, hmul, hzero, F32.mul, F32.add, mul_zero, zero_mul,
      add_zero, F32.round_zero, F32.round_huge.1, F32.round_huge.2, Bool.false_eq_true,
      if_false]
  unfold PluckerVec.Dot
  simp only [hsum, hneg, F32.neg]
  cases flip <;> rfl

/-- In `float32`, `SignDot` on `hugeRay` and `hugeEdge` returns the product NaN
and the flag `-1`, for either value of `flip`: NaN is neither `== 0` nor `> 0`. -/
lemma PluckerVec.SignDot_huge (flip : Bool) :
    hugeRay.SignDot hugeEdge flip = (F32.nan, -1) := by
  have hlt : ¬ ((F32.nan : F32) > 0) := by
    intro h
    exact absurd (show F32.ltb (F32.fin 0) F32.nan = true from h) (by simp [F32.ltb])
  have hne : (F32.nan : F32) ≠ 0 := by
    intro h
    exact absurd (show F32.nan = F32.fin 0 from h) (by simp)
  unfold PluckerVec.SignDot
  simp only [PluckerVec.Dot_huge, if_neg hne, if_neg hlt]

end Theorems

end Geom

namespace Main

/-- In `CompareDensity` mode with `Cells`, `X` and `Y` given and one positional
argument, `main` calls `compareDensityMain` whatever `Z` is: the coordinate
check is `checkCoords(x, y, x, modeName)`, which never reads `z`. -/
lemma main_compareDensity_ignores_z (f : Flags) (source : String)
    (hlog : f.outPath = "") (hcreate : f.createCatalog = false)
    (hcompare : f.compareDensity = true) (hcells : f.cells ≠ -1)
    (hx : f.x ≠ -1) (hy : f.y ≠ -1) (hargs : f.args = [source]) :
    main f = MainResult.compareDensityMain f.x f.y f.z f.cells source := by
  simp [main, checkMode, checkCells, checkCoords, hlog, hcreate, hcompare, hcells, hx, hy,
    hargs]

/-- C20, the failing input: on `-CompareDensity -Cells 8 -X 0 -Y 0 dir`, where
`Z` keeps its default `-1`, `main` passes the coordinate check and calls
`compareDensityMain(0, 0, -1, 8, "dir")`, although `checkCoords` applied to
`(x, y, z)` reports the missing z location. -/
theorem main_missingZ_reaches_compareDensityMain :
    main missingZ = MainResult.compareDensityMain 0 0 (-1) 8 "dir"
    ∧ checkCoords missingZ.x missingZ.y missingZ.z "CompareDensity"
        = Except.error "The mode CompareDensity requires a z location.\n"
    ∧ checkCoords missingZ.x missingZ.y missingZ.x "CompareDensity" = Except.ok () := by
  refine ⟨?_, ?_, ?_⟩
  · exact main_compareDensity_ignores_z missingZ "dir" rfl rfl rfl (by decide) (by decide)
      (by decide) rfl
  · simp [checkCoords, missingZ]
  · simp [checkCoords, missingZ]

end Main
